import Mathlib

/-! Bonding-curve pricing of the pump.fun SDK (`dist/browser/index.js`).

Shallow embedding of the arithmetic core of the SDK:

* `BondingCurveAccount` (lines 98-171 of `index.js`): the quote functions
  `getBuyPrice`, `getSellPrice`, `getMarketCapSOL`, `getFinalMarketCapSOL`
  and `getBuyOutPrice`;
* `AMM` (lines 9441-9497): the mutable simulator with `getBuyPrice`,
  `applyBuy`, `applySell` and `getSellPrice`;
* the slippage helpers `calculateWithSlippageBuy` and
  `calculateWithSlippageSell` (lines 5923-5930), and the floor at `1` that the
  callers of the latter apply (lines 9109-9113 and 9272-9276);
* `GlobalAccount` (lines 6-53) with the quote function `getInitialBuyPrice`;
* the constructors `AMM.fromGlobalAccount` and `AMM.fromBondingCurveAccount`
  (lines 9454-9460).

JavaScript `BigInt` values are modelled by `Int`.  The BigInt operator `/`
truncates towards zero and throws a `RangeError` when the divisor is `0n`;
it is modelled by `bigDiv`, which returns `Except.error Err.divisionByZero`
in that case and `Int.tdiv` otherwise.  A method that can throw returns an
`Except Err` value.  The methods of `AMM` assign to the fields of `this`;
they are modelled as functions returning the state after the call together
with the returned value or the thrown error, so that assignments made before
a `throw` stay visible.

`calculateWithSlippageSell` leaves BigInt arithmetic: it converts a quotient
with `Number(...)`, takes `Math.max(1, ...)` and converts back with
`BigInt(...)`.  `Number(x)` is the double nearest to `x` (ties to the even
significand) or an infinity; only such values occur, and they are modelled by
`JSNumber`.  `BigInt(...)` of an infinity throws a `RangeError`, modelled by
`NumErr.notAnInteger`.
-/

set_option exponentiation.threshold 2048

namespace PumpFun

/-- The two ways in which the modelled code throws: the explicit
`throw new Error("Curve is complete")` and the `RangeError` raised by the
BigInt operator `/` on a zero divisor. -/
inductive Err where
  | curveComplete
  | divisionByZero
  deriving DecidableEq, Repr

/-- BigInt division `a / b`: truncation towards zero, `RangeError` on `b = 0n`. -/
def bigDiv (a b : Int) : Except Err Int :=
  if b = 0 then Except.error Err.divisionByZero else Except.ok (Int.tdiv a b)

/-! ## `class BondingCurveAccount` -/

/-- Fields of `class BondingCurveAccount` (`index.js` lines 98-115). -/
structure BondingCurveAccount where
  discriminator : Int
  virtualTokenReserves : Int
  virtualSolReserves : Int
  realTokenReserves : Int
  realSolReserves : Int
  tokenTotalSupply : Int
  complete : Bool
  deriving DecidableEq, Repr

namespace BondingCurveAccount

/-- Method `getBuyPrice(amount)`, `index.js` lines 116-133. -/
def getBuyPrice (self : BondingCurveAccount) (amount : Int) : Except Err Int :=
  if self.complete then
    Except.error Err.curveComplete
  else if amount ≤ 0 then
    Except.ok 0
  else
    let n := self.virtualSolReserves * self.virtualTokenReserves
    let i := self.virtualSolReserves + amount
    match bigDiv n i with
    | Except.error e => Except.error e
    | Except.ok q =>
      let r := q + 1
      let s := self.virtualTokenReserves - r
      Except.ok (if s < self.realTokenReserves then s else self.realTokenReserves)

/-- Method `getSellPrice(amount, feeBasisPoints)`, `index.js` lines 134-147. -/
def getSellPrice (self : BondingCurveAccount) (amount feeBasisPoints : Int) :
    Except Err Int :=
  if self.complete then
    Except.error Err.curveComplete
  else if amount ≤ 0 then
    Except.ok 0
  else
    match bigDiv (amount * self.virtualSolReserves) (self.virtualTokenReserves + amount) with
    | Except.error e => Except.error e
    | Except.ok n =>
      match bigDiv (n * feeBasisPoints) 10000 with
      | Except.error e => Except.error e
      | Except.ok a => Except.ok (n - a)

/-- Method `getMarketCapSOL()`, `index.js` lines 148-154. -/
def getMarketCapSOL (self : BondingCurveAccount) : Except Err Int :=
  if self.virtualTokenReserves = 0 then
    Except.ok 0
  else
    bigDiv (self.tokenTotalSupply * self.virtualSolReserves) self.virtualTokenReserves

/-- Method `getBuyOutPrice(amount, feeBasisPoints)`, `index.js` lines 164-171. -/
def getBuyOutPrice (self : BondingCurveAccount) (amount feeBasisPoints : Int) :
    Except Err Int :=
  let solTokens :=
    if amount < self.virtualTokenReserves then self.virtualTokenReserves else amount
  match bigDiv (solTokens * self.virtualSolReserves) (self.virtualTokenReserves - solTokens) with
  | Except.error e => Except.error e
  | Except.ok q =>
    let totalSellValue := q + 1
    match bigDiv (totalSellValue * feeBasisPoints) 10000 with
    | Except.error e => Except.error e
    | Except.ok fee => Except.ok (totalSellValue + fee)

/-- Method `getFinalMarketCapSOL(feeBasisPoints)`, `index.js` lines 155-163. -/
def getFinalMarketCapSOL (self : BondingCurveAccount) (feeBasisPoints : Int) :
    Except Err Int :=
  match self.getBuyOutPrice self.realTokenReserves feeBasisPoints with
  | Except.error e => Except.error e
  | Except.ok totalSellValue =>
    let totalVirtualValue := self.virtualSolReserves + totalSellValue
    let totalVirtualTokens := self.virtualTokenReserves - self.realTokenReserves
    if totalVirtualTokens = 0 then
      Except.ok 0
    else
      bigDiv (self.tokenTotalSupply * totalVirtualValue) totalVirtualTokens

end BondingCurveAccount

/-! ## `class AMM` -/

/-- Fields of `class AMM` (`index.js` lines 9441-9453). -/
structure AMM where
  virtualSolReserves : Int
  virtualTokenReserves : Int
  realSolReserves : Int
  realTokenReserves : Int
  initialVirtualTokenReserves : Int
  deriving DecidableEq, Repr

/-- The object literal `{ token_amount, sol_amount }` returned by `applyBuy`
and `applySell`. -/
structure TradeResult where
  token_amount : Int
  sol_amount : Int
  deriving DecidableEq, Repr

namespace AMM

/-- Method `AMM.getBuyPrice(tokens)`, `index.js` lines 9461-9467.  Reads the fields
only. -/
def getBuyPrice (self : AMM) (tokens : Int) : Except Err Int :=
  let product_of_reserves := self.virtualSolReserves * self.virtualTokenReserves
  let new_virtual_token_reserves := self.virtualTokenReserves - tokens
  match bigDiv product_of_reserves new_virtual_token_reserves with
  | Except.error e => Except.error e
  | Except.ok q =>
    let new_virtual_sol_reserves := q + 1
    let amount_needed :=
      if new_virtual_sol_reserves > self.virtualSolReserves
      then new_virtual_sol_reserves - self.virtualSolReserves else 0
    Except.ok (if amount_needed > 0 then amount_needed else 0)

/-- Method `AMM.getSellPrice(tokens)`, `index.js` lines 9491-9496.  Reads the fields
only. -/
def getSellPrice (self : AMM) (tokens : Int) : Except Err Int :=
  let scaling_factor := self.initialVirtualTokenReserves
  match bigDiv (tokens * scaling_factor) self.virtualTokenReserves with
  | Except.error e => Except.error e
  | Except.ok token_sell_proportion =>
    match bigDiv (self.virtualSolReserves * token_sell_proportion) scaling_factor with
    | Except.error e => Except.error e
    | Except.ok sol_received =>
      Except.ok (if sol_received < self.realSolReserves then sol_received
                 else self.realSolReserves)

/-- Method `AMM.applyBuy(token_amount)`, `index.js` lines 9468-9479.  The first
component is the object after the call, the second the returned record or the
error thrown.  `getBuyPrice` is called before any field is assigned. -/
def applyBuy (self : AMM) (token_amount : Int) : AMM × Except Err TradeResult :=
  let final_token_amount :=
    if token_amount > self.realTokenReserves then self.realTokenReserves else token_amount
  match self.getBuyPrice final_token_amount with
  | Except.error e => (self, Except.error e)
  | Except.ok sol_amount =>
    let s1 := { self with virtualTokenReserves := self.virtualTokenReserves - final_token_amount }
    let s2 := { s1 with realTokenReserves := s1.realTokenReserves - final_token_amount }
    let s3 := { s2 with virtualSolReserves := s2.virtualSolReserves + sol_amount }
    let s4 := { s3 with realSolReserves := s3.realSolReserves + sol_amount }
    (s4, Except.ok { token_amount := final_token_amount, sol_amount := sol_amount })

/-- Method `AMM.applySell(token_amount)`, `index.js` lines 9480-9490.  The two token
reserves are assigned before `getSellPrice` is called on the updated object. -/
def applySell (self : AMM) (token_amount : Int) : AMM × Except Err TradeResult :=
  let s1 := { self with virtualTokenReserves := self.virtualTokenReserves + token_amount }
  let s2 := { s1 with realTokenReserves := s1.realTokenReserves + token_amount }
  match s2.getSellPrice token_amount with
  | Except.error e => (s2, Except.error e)
  | Except.ok sell_price =>
    let s3 := { s2 with virtualSolReserves := s2.virtualSolReserves - sell_price }
    let s4 := { s3 with realSolReserves := s3.realSolReserves - sell_price }
    (s4, Except.ok { token_amount := token_amount, sol_amount := sell_price })

end AMM

/-- Scenario A of the specification: the curve with one billion virtual
tokens, thirty billion virtual lamports and eight hundred million real tokens. -/
def scenarioA : BondingCurveAccount :=
  { discriminator := 0
    virtualTokenReserves := 1000000000
    virtualSolReserves := 30000000000
    realTokenReserves := 800000000
    realSolReserves := 0
    tokenTotalSupply := 1000000000
    complete := false }

/-- All four reserve fields of a bonding-curve account are non-negative. -/
def BondingCurveAccount.NonNegReserves (c : BondingCurveAccount) : Prop :=
  0 ≤ c.virtualTokenReserves ∧ 0 ≤ c.virtualSolReserves ∧
    0 ≤ c.realTokenReserves ∧ 0 ≤ c.realSolReserves

instance (c : BondingCurveAccount) : Decidable c.NonNegReserves := by
  unfold BondingCurveAccount.NonNegReserves; infer_instance

/-- The SOL input that the specification's formula for `getBuyPrice(tokensOut)`
describes: `max(0, newVirtualSolReserves - virtualSolReserves)` with
`newVirtualSolReserves = floor(virtualSolReserves * virtualTokenReserves /
(virtualTokenReserves - tokensOut)) + 1`. -/
def specSolIn (c : BondingCurveAccount) (tokensOut : Int) : Int :=
  max 0 (c.virtualSolReserves * c.virtualTokenReserves /
      (c.virtualTokenReserves - tokensOut) + 1 - c.virtualSolReserves)

/-- Scenario B of the specification: the curve of Scenario A after completion. -/
def scenarioB : BondingCurveAccount :=
  { scenarioA with complete := true }

/-- All four reserve fields of a simulator state are non-negative. -/
def AMM.NonNegReserves (s : AMM) : Prop :=
  0 ≤ s.virtualSolReserves ∧ 0 ≤ s.virtualTokenReserves ∧
    0 ≤ s.realSolReserves ∧ 0 ≤ s.realTokenReserves

instance (s : AMM) : Decidable s.NonNegReserves := by
  unfold AMM.NonNegReserves; infer_instance

/-- The simulator state built by `AMM.fromBondingCurveAccount` (`index.js` lines
9457-9459) from the curve of Scenario A after five SOL were paid in, with the
initial virtual token reserve `1073000000` as baseline. -/
def ammA : AMM :=
  { virtualSolReserves := 35000000000
    virtualTokenReserves := 1000000000
    realSolReserves := 5000000000
    realTokenReserves := 800000000
    initialVirtualTokenReserves := 1073000000 }

/-- The curve of Scenario A after five SOL were paid in: thirty-five billion
virtual lamports, of which five billion are real.  It is the curve whose
reserves the simulator state `ammA` holds. -/
def scenarioAFunded : BondingCurveAccount :=
  { discriminator := 0
    virtualTokenReserves := 1000000000
    virtualSolReserves := 35000000000
    realTokenReserves := 800000000
    realSolReserves := 5000000000
    tokenTotalSupply := 1000000000
    complete := false }

/-! ## Conversions between `BigInt` and `Number`, slippage helpers -/

/-- The values of the JavaScript type `Number` that `Number(x)` can take for a
BigInt `x`: the doubles with an integer value, and the two infinities. -/
inductive JSNumber where
  | finite (value : Int)
  | posInf
  | negInf
  deriving DecidableEq, Repr

/-- The `RangeError` thrown by `BigInt(x)` when the Number `x` is not an
integer, which for the values of `JSNumber` means that it is infinite. -/
inductive NumErr where
  | notAnInteger
  deriving DecidableEq, Repr

/-- Number of low-order bits that do not fit into the 53-bit significand of a
double: the least `k` with `n / 2 ^ k < 2 ^ 53`.  The first argument bounds the
number of halvings; `doubleShift n n` never exhausts it. -/
def doubleShift : Nat → Nat → Nat
  | 0, _ => 0
  | fuel + 1, n => if n < 2 ^ 53 then 0 else doubleShift fuel (n / 2) + 1

/-- The double nearest to the natural number `n`, ties going to the even
significand (IEEE 754 round-to-nearest-even), before the overflow check. -/
def roundToDouble (n : Nat) : Nat :=
  let sh := doubleShift n n
  let q := n / 2 ^ sh
  let r := n % 2 ^ sh
  let m :=
    if 2 * r < 2 ^ sh then q
    else if 2 ^ sh < 2 * r then q + 1
    else if q % 2 = 0 then q else q + 1
  m * 2 ^ sh

/-- The conversion `Number(x)` of a BigInt `x`: the nearest double, with
overflow to an infinity when the rounded magnitude reaches `2 ^ 1024`. -/
def numberOfBigInt (x : Int) : JSNumber :=
  let r := roundToDouble x.natAbs
  if 2 ^ 1024 ≤ r then
    (if 0 ≤ x then JSNumber.posInf else JSNumber.negInf)
  else
    JSNumber.finite (if 0 ≤ x then (r : Int) else -(r : Int))

/-- The call `Math.max(a, b)` on the values of `JSNumber`. -/
def mathMax : JSNumber → JSNumber → JSNumber
  | JSNumber.posInf, _ => JSNumber.posInf
  | _, JSNumber.posInf => JSNumber.posInf
  | JSNumber.negInf, b => b
  | a, JSNumber.negInf => a
  | JSNumber.finite a, JSNumber.finite b => JSNumber.finite (if a < b then b else a)

/-- The conversion `BigInt(x)` of a Number `x`: exact on an integer value, a
`RangeError` on an infinity. -/
def bigIntOfNumber : JSNumber → Except NumErr Int
  | JSNumber.finite v => Except.ok v
  | JSNumber.posInf => Except.error NumErr.notAnInteger
  | JSNumber.negInf => Except.error NumErr.notAnInteger

/-- The function `calculateWithSlippageBuy(amount, basisPoints)`, `index.js`
lines 5923-5925.  The divisor is the literal `10000n`, so that the BigInt
division cannot throw. -/
def calculateWithSlippageBuy (amount basisPoints : Int) : Int :=
  amount + Int.tdiv (amount * basisPoints) 10000

/-- The function `calculateWithSlippageSell(amount, slippageBasisPoints = 500n)`,
`index.js` lines 5926-5930.  The second argument is `none` when the caller
omits it. -/
def calculateWithSlippageSell (amount : Int) (slippageBasisPoints : Option Int) :
    Except NumErr Int :=
  let bps := slippageBasisPoints.getD 500
  let reduction :=
    mathMax (JSNumber.finite 1) (numberOfBigInt (Int.tdiv (amount * bps) 10000))
  match bigIntOfNumber reduction with
  | Except.error e => Except.error e
  | Except.ok r => Except.ok (amount - r)

/-- The value `sellAmountWithSlippage` that `PumpFunSDK.sell` (`index.js` lines
9109-9113) and `PumpFunSDK.getSellInstructionsByTokenAmount` (lines 9272-9276)
compute from the quote `minSolOutput` and pass on as minimum SOL output. -/
def sellAmountWithSlippage (minSolOutput : Int) (slippageBasisPoints : Int) :
    Except NumErr Int :=
  match calculateWithSlippageSell minSolOutput (some slippageBasisPoints) with
  | Except.error e => Except.error e
  | Except.ok v => Except.ok (if v < 1 then 1 else v)

/-- The bound that the specification's formula for the sell direction
describes: `quotedSolOutput - max(1, floor(quotedSolOutput *
slippageBasisPoints / 10000))`. -/
def specSlippageSell (quotedSolOutput slippageBasisPoints : Int) : Int :=
  quotedSolOutput - max 1 (quotedSolOutput * slippageBasisPoints / 10000)

/-! ## Sequences of calls on the simulator -/

/-- One call of a mutating method of `AMM`. -/
inductive AMMCall where
  | buy (token_amount : Int)
  | sell (token_amount : Int)
  deriving DecidableEq, Repr

/-- The simulator object after one call, whether the call returned or threw. -/
def AMM.afterCall (s : AMM) : AMMCall → AMM
  | AMMCall.buy token_amount => (s.applyBuy token_amount).1
  | AMMCall.sell token_amount => (s.applySell token_amount).1

/-- The simulator object after a sequence of calls, made from left to right. -/
def AMM.afterCalls (s : AMM) (calls : List AMMCall) : AMM :=
  calls.foldl AMM.afterCall s

/-- The simulator state `new AMM(0n, 0n, 0n, 0n, 0n)`, which
`AMM.fromGlobalAccount` (`index.js` lines 9454-9456) returns for a global
account whose initial reserves are all zero. -/
def ammUninitialised : AMM :=
  { virtualSolReserves := 0
    virtualTokenReserves := 0
    realSolReserves := 0
    realTokenReserves := 0
    initialVirtualTokenReserves := 0 }

/-! ## `class GlobalAccount` -/

/-- Fields of `class GlobalAccount` (`index.js` lines 6-26).  The two public
keys are identities that no arithmetic reads; they are kept as strings. -/
structure GlobalAccount where
  discriminator : Int
  initialized : Bool
  authority : String
  feeRecipient : String
  initialVirtualTokenReserves : Int
  initialVirtualSolReserves : Int
  initialRealTokenReserves : Int
  tokenTotalSupply : Int
  feeBasisPoints : Int
  deriving DecidableEq, Repr

/-- Method `getInitialBuyPrice(amount)`, `index.js` lines 27-38. -/
def GlobalAccount.getInitialBuyPrice (self : GlobalAccount) (amount : Int) :
    Except Err Int :=
  if amount ≤ 0 then
    Except.ok 0
  else
    let n := self.initialVirtualSolReserves * self.initialVirtualTokenReserves
    let i := self.initialVirtualSolReserves + amount
    match bigDiv n i with
    | Except.error e => Except.error e
    | Except.ok q =>
      let r := q + 1
      let s := self.initialVirtualTokenReserves - r
      Except.ok (if s < self.initialRealTokenReserves then s
                 else self.initialRealTokenReserves)

/-- A global account whose initial reserves are the reserves of Scenario A, at
a fee of one per cent. -/
def globalA : GlobalAccount :=
  { discriminator := 0
    initialized := true
    authority := "authority"
    feeRecipient := "feeRecipient"
    initialVirtualTokenReserves := 1000000000
    initialVirtualSolReserves := 30000000000
    initialRealTokenReserves := 800000000
    tokenTotalSupply := 1000000000
    feeBasisPoints := 100 }

/-- A global account whose numeric fields are all zero, as decoded from an
account that was never initialised. -/
def globalEmpty : GlobalAccount :=
  { discriminator := 0
    initialized := false
    authority := "authority"
    feeRecipient := "feeRecipient"
    initialVirtualTokenReserves := 0
    initialVirtualSolReserves := 0
    initialRealTokenReserves := 0
    tokenTotalSupply := 0
    feeBasisPoints := 0 }

/-- A non-complete curve whose reserve fields are all zero, as decoded from an
account that was never funded. -/
def curveEmpty : BondingCurveAccount :=
  { discriminator := 0
    virtualTokenReserves := 0
    virtualSolReserves := 0
    realTokenReserves := 0
    realSolReserves := 0
    tokenTotalSupply := 1000000000
    complete := false }

/-- A non-complete curve without virtual cushion: the real token reserve
equals the virtual one. -/
def curveNoCushion : BondingCurveAccount :=
  { discriminator := 0
    virtualTokenReserves := 800000000
    virtualSolReserves := 30000000000
    realTokenReserves := 800000000
    realSolReserves := 0
    tokenTotalSupply := 1000000000
    complete := false }

/-! ## Constructors of `AMM`, ranges and well-formed states -/

/-- The static method `AMM.fromGlobalAccount(global)`, `index.js` lines
9454-9456. -/
def AMM.fromGlobalAccount (global : GlobalAccount) : AMM :=
  { virtualSolReserves := global.initialVirtualSolReserves
    virtualTokenReserves := global.initialVirtualTokenReserves
    realSolReserves := 0
    realTokenReserves := global.initialRealTokenReserves
    initialVirtualTokenReserves := global.initialVirtualTokenReserves }

/-- The static method `AMM.fromBondingCurveAccount(bonding_curve,
initialVirtualTokenReserves)`, `index.js` lines 9457-9459. -/
def AMM.fromBondingCurveAccount (bonding_curve : BondingCurveAccount)
    (initialVirtualTokenReserves : Int) : AMM :=
  { virtualSolReserves := bonding_curve.virtualSolReserves
    virtualTokenReserves := bonding_curve.virtualTokenReserves
    realSolReserves := bonding_curve.realSolReserves
    realTokenReserves := bonding_curve.realTokenReserves
    initialVirtualTokenReserves := initialVirtualTokenReserves }

/-- The values that the decoder `u64(...)` of `fromBuffer` can produce. -/
def IsU64 (x : Int) : Prop := 0 ≤ x ∧ x < 2 ^ 64

instance (x : Int) : Decidable (IsU64 x) := by
  unfold IsU64; infer_instance

/-- The three conditions under which the simulator state is called
well-formed: `0 <= realTokenReserves < virtualTokenReserves`,
`0 <= realSolReserves <= virtualSolReserves` and
`initialVirtualTokenReserves > 0`. -/
def AMM.WellFormed (s : AMM) : Prop :=
  (0 ≤ s.realTokenReserves ∧ s.realTokenReserves < s.virtualTokenReserves) ∧
    (0 ≤ s.realSolReserves ∧ s.realSolReserves ≤ s.virtualSolReserves) ∧
    0 < s.initialVirtualTokenReserves

instance (s : AMM) : Decidable s.WellFormed := by
  unfold AMM.WellFormed; infer_instance

/-- The argument of a call. -/
def AMMCall.amount : AMMCall → Int
  | AMMCall.buy token_amount => token_amount
  | AMMCall.sell token_amount => token_amount

/-- A non-complete curve whose fields are in the 64-bit range and whose market
cap is not: the maximal supply and SOL reserve over a virtual token reserve of
`1`. -/
def curveHuge : BondingCurveAccount :=
  { discriminator := 0
    virtualTokenReserves := 1
    virtualSolReserves := 18446744073709551615
    realTokenReserves := 0
    realSolReserves := 0
    tokenTotalSupply := 18446744073709551615
    complete := false }

/-! ## Auxiliary facts on BigInt division -/

theorem bigDiv_of_ne_zero (a b : Int) (hb : b ≠ 0) :
    bigDiv a b = Except.ok (Int.tdiv a b) := by
  simp [bigDiv, hb]

theorem bigDiv_of_nonneg_of_pos (a b : Int) (ha : 0 ≤ a) (hb : 0 < b) :
    bigDiv a b = Except.ok (a / b) := by
  rw [bigDiv_of_ne_zero a b (by omega), Int.tdiv_eq_ediv ha (by omega)]

theorem bigDiv_zero (a : Int) : bigDiv a 0 = Except.error Err.divisionByZero := by
  simp [bigDiv]

/-! ## Auxiliary facts on `BondingCurveAccount` -/

namespace BondingCurveAccount

theorem getBuyPrice_of_complete (c : BondingCurveAccount) (amount : Int)
    (hc : c.complete = true) : c.getBuyPrice amount = Except.error Err.curveComplete := by
  simp [getBuyPrice, hc]

theorem getSellPrice_of_complete (c : BondingCurveAccount) (amount fee : Int)
    (hc : c.complete = true) :
    c.getSellPrice amount fee = Except.error Err.curveComplete := by
  simp [getSellPrice, hc]

theorem getBuyPrice_of_nonpos (c : BondingCurveAccount) (amount : Int)
    (hc : c.complete = false) (ha : amount ≤ 0) : c.getBuyPrice amount = Except.ok 0 := by
  simp [getBuyPrice, hc, ha]

theorem getSellPrice_of_nonpos (c : BondingCurveAccount) (amount fee : Int)
    (hc : c.complete = false) (ha : amount ≤ 0) :
    c.getSellPrice amount fee = Except.ok 0 := by
  simp [getSellPrice, hc, ha]

/-- The value of `getBuyPrice` on a positive amount, in terms of `bigDiv`. -/
theorem getBuyPrice_of_pos_tdiv (c : BondingCurveAccount) (amount : Int)
    (hc : c.complete = false) (ha : 0 < amount) (hi : c.virtualSolReserves + amount ≠ 0) :
    c.getBuyPrice amount = Except.ok (min (c.virtualTokenReserves -
      (Int.tdiv (c.virtualSolReserves * c.virtualTokenReserves)
        (c.virtualSolReserves + amount) + 1)) c.realTokenReserves) := by
  have ha' : ¬ amount ≤ 0 := by omega
  simp only [getBuyPrice, hc, ha', bigDiv_of_ne_zero _ _ hi, if_false, Bool.false_eq_true]
  congr 1
  split <;> omega

/-- The value of `getBuyPrice` on a positive amount when the product of the
virtual reserves and the virtual SOL reserve are non-negative. -/
theorem getBuyPrice_of_pos (c : BondingCurveAccount) (amount : Int)
    (hc : c.complete = false) (ha : 0 < amount) (hs : 0 ≤ c.virtualSolReserves)
    (hn : 0 ≤ c.virtualSolReserves * c.virtualTokenReserves) :
    c.getBuyPrice amount = Except.ok (min (c.virtualTokenReserves -
      (c.virtualSolReserves * c.virtualTokenReserves /
        (c.virtualSolReserves + amount) + 1)) c.realTokenReserves) := by
  rw [getBuyPrice_of_pos_tdiv c amount hc ha (by omega),
    Int.tdiv_eq_ediv hn (by omega)]

/-- The value of `getSellPrice` on a positive amount with non-negative
virtual reserves and fee rate. -/
theorem getSellPrice_of_pos (c : BondingCurveAccount) (amount fee : Int)
    (hc : c.complete = false) (ha : 0 < amount) (ht : 0 ≤ c.virtualTokenReserves)
    (hs : 0 ≤ c.virtualSolReserves) (hf : 0 ≤ fee) :
    c.getSellPrice amount fee = Except.ok
      (amount * c.virtualSolReserves / (c.virtualTokenReserves + amount) -
        amount * c.virtualSolReserves / (c.virtualTokenReserves + amount) * fee / 10000) := by
  have ha' : ¬ amount ≤ 0 := by omega
  have hn : 0 ≤ amount * c.virtualSolReserves := Int.mul_nonneg (by omega) hs
  have hg : 0 ≤ amount * c.virtualSolReserves / (c.virtualTokenReserves + amount) :=
    Int.ediv_nonneg hn (by omega)
  simp only [getSellPrice, hc, ha', if_false, Bool.false_eq_true,
    bigDiv_of_nonneg_of_pos _ _ hn (show 0 < c.virtualTokenReserves + amount by omega),
    bigDiv_of_nonneg_of_pos _ _ (Int.mul_nonneg hg hf) (show (0 : Int) < 10000 by omega)]

/-- The sell quote on a positive amount never raises a division by zero when
the virtual token reserve is non-negative, whatever the other fields are. -/
theorem getSellPrice_ok_of_pos (c : BondingCurveAccount) (amount fee : Int)
    (hc : c.complete = false) (ha : 0 < amount) (ht : 0 ≤ c.virtualTokenReserves) :
    ∃ w, c.getSellPrice amount fee = Except.ok w := by
  have ha' : ¬ amount ≤ 0 := by omega
  simp only [getSellPrice, hc, ha', if_false, Bool.false_eq_true,
    bigDiv_of_ne_zero _ _ (show c.virtualTokenReserves + amount ≠ 0 by omega),
    bigDiv_of_ne_zero _ _ (show (10000 : Int) ≠ 0 by omega)]
  exact ⟨_, rfl⟩

end BondingCurveAccount

/-- A non-negative numerator divided by a larger positive divisor gives a
quotient that is not larger. -/
theorem ediv_antitone_divisor (n i j : Int) (hn : 0 ≤ n) (hi : 0 < i) (hij : i ≤ j) :
    n / j ≤ n / i := by
  have hj : 0 < j := by omega
  rw [Int.le_ediv_iff_mul_le hi]
  have hq : 0 ≤ n / j := Int.ediv_nonneg hn (by omega)
  calc n / j * i ≤ n / j * j := Int.mul_le_mul_of_nonneg_left hij hq
    _ ≤ n := Int.ediv_mul_le n (by omega)

/-! ## The claims on `BondingCurveAccount` -/

/-- C1: on a non-complete curve with non-negative reserves, for `tokensIn > 0`
and `feeBasisPoints >= 0`, `getSellPrice(tokensIn, feeBasisPoints)` returns
`gross - fee` with `gross = floor(tokensIn * virtualSolReserves /
(virtualTokenReserves + tokensIn))` and `fee = floor(gross * feeBasisPoints /
10000)`.  The divisors are positive, where `/` on `Int` is the floor. -/
theorem C1_getSellPrice_gross_minus_fee (c : BondingCurveAccount)
    (tokensIn feeBasisPoints : Int) (hc : c.complete = false) (hr : c.NonNegReserves)
    (hin : 0 < tokensIn) (hfee : 0 ≤ feeBasisPoints) :
    c.getSellPrice tokensIn feeBasisPoints = Except.ok
      (tokensIn * c.virtualSolReserves / (c.virtualTokenReserves + tokensIn) -
        tokensIn * c.virtualSolReserves / (c.virtualTokenReserves + tokensIn) *
          feeBasisPoints / 10000) :=
  BondingCurveAccount.getSellPrice_of_pos c tokensIn feeBasisPoints hc hin hr.1 hr.2.1 hfee

/-- Witness of C1: selling one million tokens into Scenario A at a fee of one
per cent. -/
theorem C1_getSellPrice_gross_minus_fee_witness :
    scenarioA.getSellPrice 1000000 100 = Except.ok (29970029 - 299700) :=
  C1_getSellPrice_gross_minus_fee scenarioA 1000000 100 rfl (by decide) (by decide)
    (by decide)

/-- C2, as stated, fails in Scenario A: for the argument `1000000` (positive,
at most the real token reserve, which is below the virtual one) the code
returns the token quantity `33332`, while the formula of the claim gives the
SOL input `30030031`. -/
theorem C2_getBuyPrice_counterexample :
    scenarioA.complete = false ∧ (0 : Int) < 1000000 ∧
      1000000 ≤ scenarioA.realTokenReserves ∧
      scenarioA.realTokenReserves < scenarioA.virtualTokenReserves ∧
      scenarioA.getBuyPrice 1000000 = Except.ok 33332 ∧
      specSolIn scenarioA 1000000 = 30030031 ∧
      scenarioA.getBuyPrice 1000000 ≠ Except.ok (specSolIn scenarioA 1000000) := by
  refine ⟨rfl, by decide, by decide, by decide, rfl, rfl, ?_⟩
  intro h
  have h1 : scenarioA.getBuyPrice 1000000 = Except.ok 33332 := rfl
  have h2 : specSolIn scenarioA 1000000 = 30030031 := rfl
  rw [h1, h2] at h
  injection h with h
  omega

/-- C2 (amended): on a non-complete curve, for every argument `amount` with
`0 < amount <= realTokenReserves < virtualTokenReserves`, `getBuyPrice(amount)`
reads `amount` as the SOL paid in: it throws the division-by-zero error when
`virtualSolReserves + amount = 0` and otherwise returns the token quantity
`min(virtualTokenReserves - (q + 1), realTokenReserves)`, where `q` is the
truncated quotient of `virtualSolReserves * virtualTokenReserves` by
`virtualSolReserves + amount`; when `virtualSolReserves >= 0` it always
returns, and `q` is the floor of that quotient. -/
theorem C2_getBuyPrice_returns_tokens (c : BondingCurveAccount) (amount : Int)
    (hc : c.complete = false) (ha : 0 < amount) (har : amount ≤ c.realTokenReserves)
    (hrv : c.realTokenReserves < c.virtualTokenReserves) :
    c.getBuyPrice amount =
        (if c.virtualSolReserves + amount = 0 then Except.error Err.divisionByZero
         else Except.ok (min (c.virtualTokenReserves -
            (Int.tdiv (c.virtualSolReserves * c.virtualTokenReserves)
              (c.virtualSolReserves + amount) + 1)) c.realTokenReserves)) ∧
      (0 ≤ c.virtualSolReserves →
        c.getBuyPrice amount = Except.ok (min (c.virtualTokenReserves -
          (c.virtualSolReserves * c.virtualTokenReserves /
            (c.virtualSolReserves + amount) + 1)) c.realTokenReserves)) := by
  constructor
  · by_cases hi : c.virtualSolReserves + amount = 0
    · have ha' : ¬ amount ≤ 0 := by omega
      simp [BondingCurveAccount.getBuyPrice, hc, ha', hi, bigDiv_zero]
    · rw [if_neg hi]
      exact BondingCurveAccount.getBuyPrice_of_pos_tdiv c amount hc ha hi
  · intro hs
    exact BondingCurveAccount.getBuyPrice_of_pos c amount hc ha hs
      (Int.mul_nonneg hs (by omega))

/-- Witness of C2 (amended): Scenario A with one million lamports paid in. -/
theorem C2_getBuyPrice_returns_tokens_witness :
    scenarioA.getBuyPrice 1000000 =
        (if scenarioA.virtualSolReserves + 1000000 = 0 then Except.error Err.divisionByZero
         else Except.ok (min (scenarioA.virtualTokenReserves -
            (Int.tdiv (scenarioA.virtualSolReserves * scenarioA.virtualTokenReserves)
              (scenarioA.virtualSolReserves + 1000000) + 1)) scenarioA.realTokenReserves)) ∧
      (0 ≤ scenarioA.virtualSolReserves →
        scenarioA.getBuyPrice 1000000 = Except.ok (min (scenarioA.virtualTokenReserves -
          (scenarioA.virtualSolReserves * scenarioA.virtualTokenReserves /
            (scenarioA.virtualSolReserves + 1000000) + 1)) scenarioA.realTokenReserves)) :=
  C2_getBuyPrice_returns_tokens scenarioA 1000000 rfl (by decide) (by decide) (by decide)

/-- C3: on an account with non-negative reserves, for every amount and every
fee rate, `getBuyPrice(amount)` fails with the curve-complete error if and
only if `complete = true`, and so does `getSellPrice(amount, feeBasisPoints)`;
on a non-complete curve both return a value, so neither raises a division by
zero. -/
theorem C3_fail_iff_complete (c : BondingCurveAccount) (amount feeBasisPoints : Int)
    (hr : c.NonNegReserves) :
    (c.getBuyPrice amount = Except.error Err.curveComplete ↔ c.complete = true) ∧
      (c.getSellPrice amount feeBasisPoints = Except.error Err.curveComplete ↔
        c.complete = true) ∧
      (c.complete = false →
        (∃ v, c.getBuyPrice amount = Except.ok v) ∧
          (∃ w, c.getSellPrice amount feeBasisPoints = Except.ok w)) ∧
      c.getBuyPrice amount ≠ Except.error Err.divisionByZero ∧
      c.getSellPrice amount feeBasisPoints ≠ Except.error Err.divisionByZero := by
  obtain ⟨ht, hs, -, -⟩ := hr
  have hbuy : c.complete = false → ∃ v, c.getBuyPrice amount = Except.ok v := by
    intro hc
    rcases Int.lt_or_le 0 amount with ha | ha
    · exact ⟨_, BondingCurveAccount.getBuyPrice_of_pos_tdiv c amount hc ha (by omega)⟩
    · exact ⟨_, BondingCurveAccount.getBuyPrice_of_nonpos c amount hc ha⟩
  have hsell : c.complete = false → ∃ w, c.getSellPrice amount feeBasisPoints = Except.ok w := by
    intro hc
    rcases Int.lt_or_le 0 amount with ha | ha
    · exact BondingCurveAccount.getSellPrice_ok_of_pos c amount feeBasisPoints hc ha ht
    · exact ⟨_, BondingCurveAccount.getSellPrice_of_nonpos c amount feeBasisPoints hc ha⟩
  cases hc : c.complete with
  | true =>
    have hb := BondingCurveAccount.getBuyPrice_of_complete c amount hc
    have hse := BondingCurveAccount.getSellPrice_of_complete c amount feeBasisPoints hc
    refine ⟨by simp [hb], by simp [hse], by simp, by simp [hb], by simp [hse]⟩
  | false =>
    obtain ⟨v, hv⟩ := hbuy hc
    obtain ⟨w, hw⟩ := hsell hc
    refine ⟨by simp [hv], by simp [hw], fun _ => ⟨⟨v, hv⟩, ⟨w, hw⟩⟩, by simp [hv],
      by simp [hw]⟩

/-- Witness of C3: Scenario A and a negative amount. -/
theorem C3_fail_iff_complete_witness :
    (scenarioA.getBuyPrice (-5) = Except.error Err.curveComplete ↔
        scenarioA.complete = true) ∧
      (scenarioA.getSellPrice (-5) 100 = Except.error Err.curveComplete ↔
        scenarioA.complete = true) ∧
      (scenarioA.complete = false →
        (∃ v, scenarioA.getBuyPrice (-5) = Except.ok v) ∧
          (∃ w, scenarioA.getSellPrice (-5) 100 = Except.ok w)) ∧
      scenarioA.getBuyPrice (-5) ≠ Except.error Err.divisionByZero ∧
      scenarioA.getSellPrice (-5) 100 ≠ Except.error Err.divisionByZero :=
  C3_fail_iff_complete scenarioA (-5) 100 (by decide)

/-- C4, as stated, fails on the completed curve of Scenario B: there
`getMarketCapSOL()` returns the number `30000000000`, `getBuyOutPrice` returns
a number for an amount above the virtual token reserve and raises a division
by zero for a smaller one, and `getFinalMarketCapSOL` raises a division by
zero; none of them fails with the curve-complete error. -/
theorem C4_complete_pricing_counterexample :
    scenarioB.complete = true ∧
      scenarioB.getMarketCapSOL = Except.ok 30000000000 ∧
      scenarioB.getBuyOutPrice 2000000000 100 = Except.ok (-60599999998) ∧
      scenarioB.getBuyOutPrice 1 100 = Except.error Err.divisionByZero ∧
      scenarioB.getFinalMarketCapSOL 100 = Except.error Err.divisionByZero :=
  ⟨rfl, rfl, rfl, rfl, rfl⟩

/-- C4 (amended): for every account with `complete = true`, the calls
`getMarketCapSOL()`, `getBuyOutPrice(amount, feeBasisPoints)` and
`getFinalMarketCapSOL(feeBasisPoints)` do not read the flag: each has the
outcome it has on the same account with `complete = false`, none of them fails
with the curve-complete error, and `getMarketCapSOL()` returns a number. -/
theorem C4_complete_flag_not_read (c : BondingCurveAccount) (amount feeBasisPoints : Int)
    (_hc : c.complete = true) :
    c.getMarketCapSOL = ({ c with complete := false }).getMarketCapSOL ∧
      c.getBuyOutPrice amount feeBasisPoints =
        ({ c with complete := false }).getBuyOutPrice amount feeBasisPoints ∧
      c.getFinalMarketCapSOL feeBasisPoints =
        ({ c with complete := false }).getFinalMarketCapSOL feeBasisPoints ∧
      c.getMarketCapSOL ≠ Except.error Err.curveComplete ∧
      c.getBuyOutPrice amount feeBasisPoints ≠ Except.error Err.curveComplete ∧
      c.getFinalMarketCapSOL feeBasisPoints ≠ Except.error Err.curveComplete ∧
      (∃ v, c.getMarketCapSOL = Except.ok v) := by
  have hdiv : ∀ a b : Int, bigDiv a b ≠ Except.error Err.curveComplete := by
    intro a b
    unfold bigDiv
    split <;> simp
  have hm : ∃ v, c.getMarketCapSOL = Except.ok v := by
    unfold BondingCurveAccount.getMarketCapSOL
    by_cases h0 : c.virtualTokenReserves = 0
    · exact ⟨0, by simp [h0]⟩
    · exact ⟨_, by rw [if_neg h0, bigDiv_of_ne_zero _ _ h0]⟩
  have hb : ∀ a f : Int, c.getBuyOutPrice a f ≠ Except.error Err.curveComplete := by
    intro a f
    unfold BondingCurveAccount.getBuyOutPrice
    simp only [bigDiv_of_ne_zero _ _ (show (10000 : Int) ≠ 0 by omega)]
    have h := hdiv ((if a < c.virtualTokenReserves then c.virtualTokenReserves else a) *
      c.virtualSolReserves)
      (c.virtualTokenReserves - (if a < c.virtualTokenReserves then c.virtualTokenReserves else a))
    revert h
    generalize bigDiv _ _ = d
    intro h
    cases d with
    | error e => simpa using h
    | ok q => simp
  refine ⟨rfl, rfl, rfl, ?_, hb amount feeBasisPoints, ?_, hm⟩
  · obtain ⟨v, hv⟩ := hm
    simp [hv]
  · unfold BondingCurveAccount.getFinalMarketCapSOL
    have := hb c.realTokenReserves feeBasisPoints
    cases hq : c.getBuyOutPrice c.realTokenReserves feeBasisPoints with
    | error e =>
      rw [hq] at this
      simpa using this
    | ok q =>
      simp only
      split
      · simp
      · exact hdiv _ _

/-- Witness of C4 (amended): the completed curve of Scenario B. -/
theorem C4_complete_flag_not_read_witness :
    scenarioB.getMarketCapSOL = ({ scenarioB with complete := false }).getMarketCapSOL ∧
      scenarioB.getBuyOutPrice 2000000000 100 =
        ({ scenarioB with complete := false }).getBuyOutPrice 2000000000 100 ∧
      scenarioB.getFinalMarketCapSOL 100 =
        ({ scenarioB with complete := false }).getFinalMarketCapSOL 100 ∧
      scenarioB.getMarketCapSOL ≠ Except.error Err.curveComplete ∧
      scenarioB.getBuyOutPrice 2000000000 100 ≠ Except.error Err.curveComplete ∧
      scenarioB.getFinalMarketCapSOL 100 ≠ Except.error Err.curveComplete ∧
      (∃ v, scenarioB.getMarketCapSOL = Except.ok v) :=
  C4_complete_flag_not_read scenarioB 2000000000 100 rfl

/-- C5: on a non-complete curve with non-negative reserves, for every
`amount > 0`, `getBuyPrice(amount)` returns a token quantity that does not
exceed `realTokenReserves`: it is the minimum of the curve-computed quantity
`virtualTokenReserves - (floor(virtualSolReserves * virtualTokenReserves /
(virtualSolReserves + amount)) + 1)` and `realTokenReserves`. -/
theorem C5_getBuyPrice_le_realTokenReserves (c : BondingCurveAccount) (amount : Int)
    (hc : c.complete = false) (hr : c.NonNegReserves) (ha : 0 < amount) :
    ∃ v, c.getBuyPrice amount = Except.ok v ∧ v ≤ c.realTokenReserves ∧
      v = min (c.virtualTokenReserves -
        (c.virtualSolReserves * c.virtualTokenReserves /
          (c.virtualSolReserves + amount) + 1)) c.realTokenReserves :=
  ⟨_, BondingCurveAccount.getBuyPrice_of_pos c amount hc ha hr.2.1
    (Int.mul_nonneg hr.2.1 hr.1), min_le_right _ _, rfl⟩

/-- Witness of C5: Scenario A with a payment so large that the real token
reserve is the binding bound. -/
theorem C5_getBuyPrice_le_realTokenReserves_witness :
    ∃ v, scenarioA.getBuyPrice 900000000000 = Except.ok v ∧
      v ≤ scenarioA.realTokenReserves ∧
      v = min (scenarioA.virtualTokenReserves -
        (scenarioA.virtualSolReserves * scenarioA.virtualTokenReserves /
          (scenarioA.virtualSolReserves + 900000000000) + 1)) scenarioA.realTokenReserves :=
  C5_getBuyPrice_le_realTokenReserves scenarioA 900000000000 rfl (by decide) (by decide)

/-- C6: `getBuyPrice` is monotonically non-decreasing in its argument: on a
non-complete curve with non-negative reserves, for `0 < a <= b`, both calls
return and `getBuyPrice(a) <= getBuyPrice(b)`. -/
theorem C6_getBuyPrice_monotone (c : BondingCurveAccount) (a b : Int)
    (hc : c.complete = false) (hr : c.NonNegReserves) (ha : 0 < a) (hab : a ≤ b) :
    ∃ x y, c.getBuyPrice a = Except.ok x ∧ c.getBuyPrice b = Except.ok y ∧ x ≤ y := by
  obtain ⟨ht, hs, -, -⟩ := hr
  have hn : 0 ≤ c.virtualSolReserves * c.virtualTokenReserves := Int.mul_nonneg hs ht
  refine ⟨_, _, BondingCurveAccount.getBuyPrice_of_pos c a hc ha hs hn,
    BondingCurveAccount.getBuyPrice_of_pos c b hc (by omega) hs hn, ?_⟩
  have hq := ediv_antitone_divisor (c.virtualSolReserves * c.virtualTokenReserves)
    (c.virtualSolReserves + a) (c.virtualSolReserves + b) hn (by omega) (by omega)
  apply min_le_min _ (le_refl _)
  omega

/-- Witness of C6 (Scenario A): `getBuyPrice(1000000) <= getBuyPrice(1000001)`. -/
theorem C6_getBuyPrice_monotone_witness :
    ∃ x y, scenarioA.getBuyPrice 1000000 = Except.ok x ∧
      scenarioA.getBuyPrice 1000001 = Except.ok y ∧ x ≤ y :=
  C6_getBuyPrice_monotone scenarioA 1000000 1000001 rfl (by decide) (by decide) (by decide)

/-- C7, as stated, fails in Scenario A: the reserves are positive, the real
token reserve is below the virtual one and `0 < 1 < realTokenReserves`, yet
`getBuyPrice(1)` returns `0`. -/
theorem C7_getBuyPrice_pos_counterexample :
    scenarioA.complete = false ∧ 0 < scenarioA.virtualTokenReserves ∧
      0 < scenarioA.virtualSolReserves ∧
      scenarioA.realTokenReserves ≤ scenarioA.virtualTokenReserves ∧
      (0 : Int) < 1 ∧ 1 < scenarioA.realTokenReserves ∧
      scenarioA.getBuyPrice 1 = Except.ok 0 :=
  ⟨rfl, by decide, by decide, by decide, by decide, by decide, rfl⟩

/-- C7 (amended): on a non-complete curve with positive virtual reserves and
`realTokenReserves <= virtualTokenReserves`, for every `x` with
`0 < x < realTokenReserves`, `getBuyPrice(x)` returns a value `v >= 0`, and
`v > 0` exactly when `virtualSolReserves + x < virtualTokenReserves * x`. -/
theorem C7_getBuyPrice_nonneg_pos_iff (c : BondingCurveAccount) (x : Int)
    (hc : c.complete = false) (ht : 0 < c.virtualTokenReserves)
    (hs : 0 < c.virtualSolReserves) (_hrv : c.realTokenReserves ≤ c.virtualTokenReserves)
    (hx : 0 < x) (hxr : x < c.realTokenReserves) :
    ∃ v, c.getBuyPrice x = Except.ok v ∧ 0 ≤ v ∧
      (0 < v ↔ c.virtualSolReserves + x < c.virtualTokenReserves * x) := by
  have hn : 0 ≤ c.virtualSolReserves * c.virtualTokenReserves :=
    Int.mul_nonneg (by omega) (by omega)
  have hi : 0 < c.virtualSolReserves + x := by omega
  refine ⟨_, BondingCurveAccount.getBuyPrice_of_pos c x hc hx (by omega) hn, ?_, ?_⟩
  · have hq : c.virtualSolReserves * c.virtualTokenReserves / (c.virtualSolReserves + x) <
        c.virtualTokenReserves := by
      rw [Int.ediv_lt_iff_lt_mul hi]
      have : 0 < c.virtualTokenReserves * x := Int.mul_pos ht hx
      nlinarith
    exact le_min (by omega) (by omega)
  · have hq : c.virtualSolReserves * c.virtualTokenReserves / (c.virtualSolReserves + x) <
        c.virtualTokenReserves - 1 ↔
        c.virtualSolReserves + x < c.virtualTokenReserves * x := by
      rw [Int.ediv_lt_iff_lt_mul hi]
      constructor <;> intro h <;> nlinarith
    rw [lt_min_iff, ← hq]
    constructor
    · rintro ⟨h, -⟩
      omega
    · intro h
      exact ⟨by omega, by omega⟩

/-- Witness of C7 (amended): Scenario A with one million lamports paid in. -/
theorem C7_getBuyPrice_nonneg_pos_iff_witness :
    ∃ v, scenarioA.getBuyPrice 1000000 = Except.ok v ∧ 0 ≤ v ∧
      (0 < v ↔ scenarioA.virtualSolReserves + 1000000 <
        scenarioA.virtualTokenReserves * 1000000) :=
  C7_getBuyPrice_nonneg_pos_iff scenarioA 1000000 rfl (by decide) (by decide) (by decide)
    (by decide) (by decide)

/-! ## Auxiliary facts on `AMM` -/

namespace AMM

/-- The value of `AMM.getBuyPrice` when fewer tokens are requested than the
virtual token reserve holds. -/
theorem amm_getBuyPrice_of_lt (s : AMM) (tokens : Int) (hs : 0 ≤ s.virtualSolReserves)
    (ht : 0 ≤ s.virtualTokenReserves) (hlt : tokens < s.virtualTokenReserves) :
    s.getBuyPrice tokens = Except.ok (max 0
      (s.virtualSolReserves * s.virtualTokenReserves / (s.virtualTokenReserves - tokens) + 1 -
        s.virtualSolReserves)) := by
  have hn : 0 ≤ s.virtualSolReserves * s.virtualTokenReserves := Int.mul_nonneg hs ht
  simp only [getBuyPrice,
    bigDiv_of_nonneg_of_pos _ _ hn (show 0 < s.virtualTokenReserves - tokens by omega)]
  congr 1
  split <;> split <;> omega

/-- The effect of `applyBuy` when the real token reserve is below the virtual
one. -/
theorem applyBuy_of_lt (s : AMM) (token_amount : Int) (hs : 0 ≤ s.virtualSolReserves)
    (hr : 0 ≤ s.realTokenReserves) (hrv : s.realTokenReserves < s.virtualTokenReserves) :
    s.applyBuy token_amount =
      ({ virtualSolReserves := s.virtualSolReserves + max 0
            (s.virtualSolReserves * s.virtualTokenReserves /
              (s.virtualTokenReserves - min token_amount s.realTokenReserves) + 1 -
              s.virtualSolReserves)
         virtualTokenReserves := s.virtualTokenReserves - min token_amount s.realTokenReserves
         realSolReserves := s.realSolReserves + max 0
            (s.virtualSolReserves * s.virtualTokenReserves /
              (s.virtualTokenReserves - min token_amount s.realTokenReserves) + 1 -
              s.virtualSolReserves)
         realTokenReserves := s.realTokenReserves - min token_amount s.realTokenReserves
         initialVirtualTokenReserves := s.initialVirtualTokenReserves },
       Except.ok
        { token_amount := min token_amount s.realTokenReserves
          sol_amount := max 0
            (s.virtualSolReserves * s.virtualTokenReserves /
              (s.virtualTokenReserves - min token_amount s.realTokenReserves) + 1 -
              s.virtualSolReserves) }) := by
  have hmin : (if token_amount > s.realTokenReserves then s.realTokenReserves
      else token_amount) = min token_amount s.realTokenReserves := by
    split <;> omega
  have hlt : min token_amount s.realTokenReserves < s.virtualTokenReserves := by omega
  simp only [applyBuy, hmin, amm_getBuyPrice_of_lt s _ hs (by omega) hlt]

/-- The value of `AMM.getSellPrice` on a state with positive virtual token
reserve and positive baseline. -/
theorem amm_getSellPrice_of_pos (s : AMM) (tokens : Int) (hs : 0 ≤ s.virtualSolReserves)
    (ht : 0 < s.virtualTokenReserves) (hi : 0 < s.initialVirtualTokenReserves)
    (hk : 0 ≤ tokens) :
    s.getSellPrice tokens = Except.ok (min s.realSolReserves
      (s.virtualSolReserves *
        (tokens * s.initialVirtualTokenReserves / s.virtualTokenReserves) /
        s.initialVirtualTokenReserves)) := by
  have h1 : 0 ≤ tokens * s.initialVirtualTokenReserves := Int.mul_nonneg hk (by omega)
  have h2 : 0 ≤ tokens * s.initialVirtualTokenReserves / s.virtualTokenReserves :=
    Int.ediv_nonneg h1 (by omega)
  have h3 : 0 ≤ s.virtualSolReserves *
      (tokens * s.initialVirtualTokenReserves / s.virtualTokenReserves) :=
    Int.mul_nonneg hs h2
  simp only [getSellPrice, bigDiv_of_nonneg_of_pos _ _ h1 ht,
    bigDiv_of_nonneg_of_pos _ _ h3 hi]
  congr 1
  split <;> omega

/-- The effect of `applySell` when the virtual token reserve is positive after
the sold tokens were added. -/
theorem applySell_of_pos (s : AMM) (token_amount : Int) (hs : 0 ≤ s.virtualSolReserves)
    (hi : 0 < s.initialVirtualTokenReserves) (ht : 0 ≤ token_amount)
    (hpos : 0 < s.virtualTokenReserves + token_amount) :
    s.applySell token_amount =
      ({ virtualSolReserves := s.virtualSolReserves - min s.realSolReserves
            (s.virtualSolReserves * (token_amount * s.initialVirtualTokenReserves /
              (s.virtualTokenReserves + token_amount)) / s.initialVirtualTokenReserves)
         virtualTokenReserves := s.virtualTokenReserves + token_amount
         realSolReserves := s.realSolReserves - min s.realSolReserves
            (s.virtualSolReserves * (token_amount * s.initialVirtualTokenReserves /
              (s.virtualTokenReserves + token_amount)) / s.initialVirtualTokenReserves)
         realTokenReserves := s.realTokenReserves + token_amount
         initialVirtualTokenReserves := s.initialVirtualTokenReserves },
       Except.ok
        { token_amount := token_amount
          sol_amount := min s.realSolReserves
            (s.virtualSolReserves * (token_amount * s.initialVirtualTokenReserves /
              (s.virtualTokenReserves + token_amount)) / s.initialVirtualTokenReserves) }) := by
  have hsell := amm_getSellPrice_of_pos
    { s with virtualTokenReserves := s.virtualTokenReserves + token_amount,
             realTokenReserves := s.realTokenReserves + token_amount }
    token_amount hs hpos hi ht
  simp only at hsell
  simp only [applySell, hsell]

end AMM

/-! ## The claims on `AMM` -/

/-- C8: `applyBuy` never under-charges: on a state with
`virtualSolReserves >= 0` and `0 <= realTokenReserves < virtualTokenReserves`,
for every `token_amount >= 0`, `applyBuy(token_amount)` returns, and the product
`virtualSolReserves * virtualTokenReserves` after the call is at least the
product before it. -/
theorem C8_applyBuy_product_not_decreasing (s : AMM) (token_amount : Int)
    (hs : 0 ≤ s.virtualSolReserves) (hr : 0 ≤ s.realTokenReserves)
    (hrv : s.realTokenReserves < s.virtualTokenReserves) (_ht : 0 ≤ token_amount) :
    (∃ r, (s.applyBuy token_amount).2 = Except.ok r) ∧
      s.virtualSolReserves * s.virtualTokenReserves ≤
        (s.applyBuy token_amount).1.virtualSolReserves *
          (s.applyBuy token_amount).1.virtualTokenReserves := by
  rw [AMM.applyBuy_of_lt s token_amount hs hr hrv]
  refine ⟨⟨_, rfl⟩, ?_⟩
  simp only
  have hd : 0 < s.virtualTokenReserves - min token_amount s.realTokenReserves := by omega
  have hlt := Int.lt_ediv_add_one_mul_self (s.virtualSolReserves * s.virtualTokenReserves) hd
  have hge : s.virtualSolReserves * s.virtualTokenReserves /
      (s.virtualTokenReserves - min token_amount s.realTokenReserves) + 1 ≤
      s.virtualSolReserves + max 0
        (s.virtualSolReserves * s.virtualTokenReserves /
          (s.virtualTokenReserves - min token_amount s.realTokenReserves) + 1 -
          s.virtualSolReserves) := by omega
  have hmul := Int.mul_le_mul_of_nonneg_right hge (Int.le_of_lt hd)
  omega

/-- Witness of C8: buying one hundred million tokens from `ammA`. -/
theorem C8_applyBuy_product_not_decreasing_witness :
    (∃ r, (ammA.applyBuy 100000000).2 = Except.ok r) ∧
      ammA.virtualSolReserves * ammA.virtualTokenReserves ≤
        (ammA.applyBuy 100000000).1.virtualSolReserves *
          (ammA.applyBuy 100000000).1.virtualTokenReserves :=
  C8_applyBuy_product_not_decreasing ammA 100000000 (by decide) (by decide) (by decide)
    (by decide)

/-- C9: on a state with `virtualSolReserves >= 0` and
`0 <= realTokenReserves < virtualTokenReserves`, for every `token_amount >= 0`,
`applyBuy(token_amount)` returns `token_amount' = min(token_amount,
realTokenReserves)` and `sol_amount = max(0, floor(virtualSolReserves *
virtualTokenReserves / (virtualTokenReserves - token_amount')) + 1 -
virtualSolReserves)`; in the resulting state both token reserves are decreased
by `token_amount'`, both SOL reserves are increased by `sol_amount`, and
`initialVirtualTokenReserves` is unchanged. -/
theorem C9_applyBuy_result_and_state (s : AMM) (token_amount : Int)
    (hs : 0 ≤ s.virtualSolReserves) (hr : 0 ≤ s.realTokenReserves)
    (hrv : s.realTokenReserves < s.virtualTokenReserves) (_ht : 0 ≤ token_amount) :
    ∃ tok sol : Int,
      tok = min token_amount s.realTokenReserves ∧
      sol = max 0 (s.virtualSolReserves * s.virtualTokenReserves /
        (s.virtualTokenReserves - tok) + 1 - s.virtualSolReserves) ∧
      (s.applyBuy token_amount).2 = Except.ok { token_amount := tok, sol_amount := sol } ∧
      (s.applyBuy token_amount).1.virtualTokenReserves = s.virtualTokenReserves - tok ∧
      (s.applyBuy token_amount).1.realTokenReserves = s.realTokenReserves - tok ∧
      (s.applyBuy token_amount).1.virtualSolReserves = s.virtualSolReserves + sol ∧
      (s.applyBuy token_amount).1.realSolReserves = s.realSolReserves + sol ∧
      (s.applyBuy token_amount).1.initialVirtualTokenReserves =
        s.initialVirtualTokenReserves := by
  rw [AMM.applyBuy_of_lt s token_amount hs hr hrv]
  exact ⟨_, _, rfl, rfl, rfl, rfl, rfl, rfl, rfl, rfl⟩

/-- Witness of C9: a request above the real token reserve of `ammA`, which is
cut down to that reserve. -/
theorem C9_applyBuy_result_and_state_witness :
    ∃ tok sol : Int,
      tok = min 900000000 ammA.realTokenReserves ∧
      sol = max 0 (ammA.virtualSolReserves * ammA.virtualTokenReserves /
        (ammA.virtualTokenReserves - tok) + 1 - ammA.virtualSolReserves) ∧
      (ammA.applyBuy 900000000).2 = Except.ok { token_amount := tok, sol_amount := sol } ∧
      (ammA.applyBuy 900000000).1.virtualTokenReserves = ammA.virtualTokenReserves - tok ∧
      (ammA.applyBuy 900000000).1.realTokenReserves = ammA.realTokenReserves - tok ∧
      (ammA.applyBuy 900000000).1.virtualSolReserves = ammA.virtualSolReserves + sol ∧
      (ammA.applyBuy 900000000).1.realSolReserves = ammA.realSolReserves + sol ∧
      (ammA.applyBuy 900000000).1.initialVirtualTokenReserves =
        ammA.initialVirtualTokenReserves :=
  C9_applyBuy_result_and_state ammA 900000000 (by decide) (by decide) (by decide)
    (by decide)

/-- C10: on a state with non-negative reserves and
`initialVirtualTokenReserves > 0`, for every `token_amount >= 0` with
`virtualTokenReserves + token_amount > 0`, `applySell(token_amount)` returns
`token_amount` unchanged and `sol_amount = min(realSolReserves,
floor(virtualSolReserves * floor(token_amount * initialVirtualTokenReserves /
(virtualTokenReserves + token_amount)) / initialVirtualTokenReserves))`; in the
resulting state both token reserves are increased by `token_amount`, both SOL
reserves are decreased by `sol_amount`, and `initialVirtualTokenReserves` is
unchanged. -/
theorem C10_applySell_result_and_state (s : AMM) (token_amount : Int)
    (hr : s.NonNegReserves) (hi : 0 < s.initialVirtualTokenReserves)
    (ht : 0 ≤ token_amount) (hpos : 0 < s.virtualTokenReserves + token_amount) :
    ∃ sol : Int,
      sol = min s.realSolReserves (s.virtualSolReserves *
        (token_amount * s.initialVirtualTokenReserves /
          (s.virtualTokenReserves + token_amount)) / s.initialVirtualTokenReserves) ∧
      (s.applySell token_amount).2 =
        Except.ok { token_amount := token_amount, sol_amount := sol } ∧
      (s.applySell token_amount).1.virtualTokenReserves =
        s.virtualTokenReserves + token_amount ∧
      (s.applySell token_amount).1.realTokenReserves = s.realTokenReserves + token_amount ∧
      (s.applySell token_amount).1.virtualSolReserves = s.virtualSolReserves - sol ∧
      (s.applySell token_amount).1.realSolReserves = s.realSolReserves - sol ∧
      (s.applySell token_amount).1.initialVirtualTokenReserves =
        s.initialVirtualTokenReserves := by
  rw [AMM.applySell_of_pos s token_amount hr.1 hi ht hpos]
  exact ⟨_, rfl, rfl, rfl, rfl, rfl, rfl, rfl⟩

/-- Witness of C10: selling one hundred million tokens into `ammA`. -/
theorem C10_applySell_result_and_state_witness :
    ∃ sol : Int,
      sol = min ammA.realSolReserves (ammA.virtualSolReserves *
        (100000000 * ammA.initialVirtualTokenReserves /
          (ammA.virtualTokenReserves + 100000000)) / ammA.initialVirtualTokenReserves) ∧
      (ammA.applySell 100000000).2 =
        Except.ok { token_amount := 100000000, sol_amount := sol } ∧
      (ammA.applySell 100000000).1.virtualTokenReserves =
        ammA.virtualTokenReserves + 100000000 ∧
      (ammA.applySell 100000000).1.realTokenReserves = ammA.realTokenReserves + 100000000 ∧
      (ammA.applySell 100000000).1.virtualSolReserves = ammA.virtualSolReserves - sol ∧
      (ammA.applySell 100000000).1.realSolReserves = ammA.realSolReserves - sol ∧
      (ammA.applySell 100000000).1.initialVirtualTokenReserves =
        ammA.initialVirtualTokenReserves :=
  C10_applySell_result_and_state ammA 100000000 (by decide) (by decide) (by decide)
    (by decide)


/-! ## Auxiliary facts on failing and arbitrary calls of `AMM` -/

namespace AMM

/-- A call of `applyBuy` that throws leaves the object as it was. -/
theorem applyBuy_state_of_error (s : AMM) (token_amount : Int) (e : Err)
    (h : (s.applyBuy token_amount).2 = Except.error e) :
    (s.applyBuy token_amount).1 = s := by
  cases hres : s.getBuyPrice (if token_amount > s.realTokenReserves then s.realTokenReserves
    else token_amount) with
  | error e1 => simp [applyBuy, hres]
  | ok v => simp [applyBuy, hres] at h

/-- A call of `applySell` that throws has assigned the two token reserves and
nothing else. -/
theorem applySell_state_of_error (s : AMM) (token_amount : Int) (e : Err)
    (h : (s.applySell token_amount).2 = Except.error e) :
    (s.applySell token_amount).1 =
      { s with virtualTokenReserves := s.virtualTokenReserves + token_amount,
               realTokenReserves := s.realTokenReserves + token_amount } := by
  cases hres : getSellPrice ⟨s.virtualSolReserves, s.virtualTokenReserves + token_amount,
      s.realSolReserves, s.realTokenReserves + token_amount,
      s.initialVirtualTokenReserves⟩ token_amount with
  | error e1 => simp [applySell, hres]
  | ok v => simp [applySell, hres] at h

/-- Every call of `applyBuy`, returning or not, leaves the two differences
between virtual and real reserves as they were. -/
theorem applyBuy_differences (s : AMM) (token_amount : Int) :
    (s.applyBuy token_amount).1.virtualTokenReserves -
        (s.applyBuy token_amount).1.realTokenReserves =
        s.virtualTokenReserves - s.realTokenReserves ∧
      (s.applyBuy token_amount).1.virtualSolReserves -
        (s.applyBuy token_amount).1.realSolReserves =
        s.virtualSolReserves - s.realSolReserves := by
  cases hres : s.getBuyPrice (if token_amount > s.realTokenReserves then s.realTokenReserves
    else token_amount) with
  | error e1 => simp [applyBuy, hres]
  | ok v =>
    simp only [applyBuy, hres]
    exact ⟨by omega, by omega⟩

/-- Every call of `applySell`, returning or not, leaves the two differences
between virtual and real reserves as they were. -/
theorem applySell_differences (s : AMM) (token_amount : Int) :
    (s.applySell token_amount).1.virtualTokenReserves -
        (s.applySell token_amount).1.realTokenReserves =
        s.virtualTokenReserves - s.realTokenReserves ∧
      (s.applySell token_amount).1.virtualSolReserves -
        (s.applySell token_amount).1.realSolReserves =
        s.virtualSolReserves - s.realSolReserves := by
  cases hres : getSellPrice ⟨s.virtualSolReserves, s.virtualTokenReserves + token_amount,
      s.realSolReserves, s.realTokenReserves + token_amount,
      s.initialVirtualTokenReserves⟩ token_amount with
  | error e1 =>
    simp only [applySell, hres, and_true]
    omega
  | ok v =>
    simp only [applySell, hres]
    exact ⟨by omega, by omega⟩

/-- The two differences are the same after any sequence of calls. -/
theorem afterCalls_differences (calls : List AMMCall) (s : AMM) :
    (s.afterCalls calls).virtualTokenReserves - (s.afterCalls calls).realTokenReserves =
        s.virtualTokenReserves - s.realTokenReserves ∧
      (s.afterCalls calls).virtualSolReserves - (s.afterCalls calls).realSolReserves =
        s.virtualSolReserves - s.realSolReserves := by
  induction calls generalizing s with
  | nil => exact ⟨rfl, rfl⟩
  | cons c rest ih =>
    have hstep : (s.afterCall c).virtualTokenReserves - (s.afterCall c).realTokenReserves =
          s.virtualTokenReserves - s.realTokenReserves ∧
        (s.afterCall c).virtualSolReserves - (s.afterCall c).realSolReserves =
          s.virtualSolReserves - s.realSolReserves := by
      cases c with
      | buy t => exact applyBuy_differences s t
      | sell t => exact applySell_differences s t
    have hrest := ih (s.afterCall c)
    have hfold : s.afterCalls (c :: rest) = (s.afterCall c).afterCalls rest := rfl
    rw [hfold]
    exact ⟨hrest.1.trans hstep.1, hrest.2.trans hstep.2⟩

end AMM

/-! ## The claims on zero amounts, failures and lockstep of `AMM` -/

/-- C11, as stated, fails on `ammA`: the reserves are non-negative and the
virtual token reserve is positive, yet `applyBuy(0)` returns the SOL amount `1`
and raises both SOL reserves by `1`. -/
theorem C11_applyBuy_zero_counterexample :
    0 < ammA.virtualTokenReserves ∧ ammA.NonNegReserves ∧
      (ammA.applyBuy 0).2 = Except.ok { token_amount := 0, sol_amount := 1 } ∧
      (ammA.applyBuy 0).1.virtualSolReserves = 35000000001 ∧
      ammA.virtualSolReserves = 35000000000 ∧
      (ammA.applyBuy 0).1.realSolReserves = 5000000001 ∧
      ammA.realSolReserves = 5000000000 :=
  ⟨by decide, by decide, rfl, rfl, rfl, rfl, rfl⟩

/-- C11 (amended): on a state with `virtualTokenReserves > 0` and non-negative
reserves, `applyBuy(0)` returns `{token_amount: 0, sol_amount: 1}`, leaves
`virtualTokenReserves`, `realTokenReserves` and `initialVirtualTokenReserves`
unchanged, and raises `virtualSolReserves` and `realSolReserves` by `1` each. -/
theorem C11_applyBuy_zero_charges_one (s : AMM) (ht : 0 < s.virtualTokenReserves)
    (hr : s.NonNegReserves) :
    (s.applyBuy 0).2 = Except.ok { token_amount := 0, sol_amount := 1 } ∧
      (s.applyBuy 0).1.virtualTokenReserves = s.virtualTokenReserves ∧
      (s.applyBuy 0).1.realTokenReserves = s.realTokenReserves ∧
      (s.applyBuy 0).1.virtualSolReserves = s.virtualSolReserves + 1 ∧
      (s.applyBuy 0).1.realSolReserves = s.realSolReserves + 1 ∧
      (s.applyBuy 0).1.initialVirtualTokenReserves = s.initialVirtualTokenReserves := by
  obtain ⟨hs, -, -, hrt⟩ := hr
  have hfinal : (if (0 : Int) > s.realTokenReserves then s.realTokenReserves else 0) = 0 := by
    split <;> omega
  have hq : s.virtualSolReserves * s.virtualTokenReserves / (s.virtualTokenReserves - 0) =
      s.virtualSolReserves := by
    rw [Int.sub_zero]
    exact Int.mul_ediv_cancel _ (by omega)
  have hprice : s.getBuyPrice 0 = Except.ok 1 := by
    rw [AMM.amm_getBuyPrice_of_lt s 0 hs (by omega) ht, hq]
    congr 1
    omega
  simp [AMM.applyBuy, hfinal, hprice]

/-- Witness of C11 (amended): `applyBuy(0)` on `ammA`. -/
theorem C11_applyBuy_zero_charges_one_witness :
    (ammA.applyBuy 0).2 = Except.ok { token_amount := 0, sol_amount := 1 } ∧
      (ammA.applyBuy 0).1.virtualTokenReserves = ammA.virtualTokenReserves ∧
      (ammA.applyBuy 0).1.realTokenReserves = ammA.realTokenReserves ∧
      (ammA.applyBuy 0).1.virtualSolReserves = ammA.virtualSolReserves + 1 ∧
      (ammA.applyBuy 0).1.realSolReserves = ammA.realSolReserves + 1 ∧
      (ammA.applyBuy 0).1.initialVirtualTokenReserves = ammA.initialVirtualTokenReserves :=
  C11_applyBuy_zero_charges_one ammA (by decide) (by decide)

/-- C12: on a state with `virtualTokenReserves > 0`,
`initialVirtualTokenReserves > 0` and non-negative reserves, `applySell(0)`
returns `{token_amount: 0, sol_amount: 0}` and leaves `virtualSolReserves`,
`virtualTokenReserves`, `realSolReserves` and `realTokenReserves` unchanged. -/
theorem C12_applySell_zero_noop (s : AMM) (ht : 0 < s.virtualTokenReserves)
    (hi : 0 < s.initialVirtualTokenReserves) (hr : s.NonNegReserves) :
    (s.applySell 0).2 = Except.ok { token_amount := 0, sol_amount := 0 } ∧
      (s.applySell 0).1.virtualSolReserves = s.virtualSolReserves ∧
      (s.applySell 0).1.virtualTokenReserves = s.virtualTokenReserves ∧
      (s.applySell 0).1.realSolReserves = s.realSolReserves ∧
      (s.applySell 0).1.realTokenReserves = s.realTokenReserves ∧
      (s.applySell 0).1 = s := by
  obtain ⟨hs, -, hrs, -⟩ := hr
  have hzero : min s.realSolReserves (s.virtualSolReserves *
      (0 * s.initialVirtualTokenReserves / (s.virtualTokenReserves + 0)) /
      s.initialVirtualTokenReserves) = 0 := by
    simp [hrs]
  rw [AMM.applySell_of_pos s 0 hs hi (le_refl 0) (by omega), hzero]
  simp

/-- Witness of C12: `applySell(0)` on `ammA`. -/
theorem C12_applySell_zero_noop_witness :
    (ammA.applySell 0).2 = Except.ok { token_amount := 0, sol_amount := 0 } ∧
      (ammA.applySell 0).1.virtualSolReserves = ammA.virtualSolReserves ∧
      (ammA.applySell 0).1.virtualTokenReserves = ammA.virtualTokenReserves ∧
      (ammA.applySell 0).1.realSolReserves = ammA.realSolReserves ∧
      (ammA.applySell 0).1.realTokenReserves = ammA.realTokenReserves ∧
      (ammA.applySell 0).1 = ammA :=
  C12_applySell_zero_noop ammA (by decide) (by decide) (by decide)

/-- C13, as stated, fails on the all-zero state: `applySell(5)` throws the
division-by-zero error, and after the call both token reserves are `5` instead
of `0`. -/
theorem C13_applySell_not_atomic_counterexample :
    (ammUninitialised.applySell 5).2 = Except.error Err.divisionByZero ∧
      ammUninitialised.virtualTokenReserves = 0 ∧
      (ammUninitialised.applySell 5).1.virtualTokenReserves = 5 ∧
      ammUninitialised.realTokenReserves = 0 ∧
      (ammUninitialised.applySell 5).1.realTokenReserves = 5 ∧
      (ammUninitialised.applySell 5).1 ≠ ammUninitialised :=
  ⟨rfl, rfl, rfl, rfl, rfl, by decide⟩

/-- C13 (amended): for every state and every `token_amount`, if
`applyBuy(token_amount)` fails then all five fields are what they were before
the call, and if `applySell(token_amount)` fails then `virtualSolReserves`,
`realSolReserves` and `initialVirtualTokenReserves` are what they were before
the call. -/
theorem C13_failure_state (s : AMM) (token_amount : Int) :
    ((∃ e, (s.applyBuy token_amount).2 = Except.error e) →
        (s.applyBuy token_amount).1 = s) ∧
      ((∃ e, (s.applySell token_amount).2 = Except.error e) →
        (s.applySell token_amount).1.virtualSolReserves = s.virtualSolReserves ∧
        (s.applySell token_amount).1.realSolReserves = s.realSolReserves ∧
        (s.applySell token_amount).1.initialVirtualTokenReserves =
          s.initialVirtualTokenReserves) := by
  constructor
  · rintro ⟨e, he⟩
    exact AMM.applyBuy_state_of_error s token_amount e he
  · rintro ⟨e, he⟩
    rw [AMM.applySell_state_of_error s token_amount e he]
    exact ⟨rfl, rfl, rfl⟩

/-- Witness of C13 (amended): on the all-zero state both `applyBuy(5)` and
`applySell(5)` throw. -/
theorem C13_failure_state_witness :
    (ammUninitialised.applyBuy 5).2 = Except.error Err.divisionByZero ∧
      (ammUninitialised.applyBuy 5).1 = ammUninitialised ∧
      (ammUninitialised.applySell 5).2 = Except.error Err.divisionByZero ∧
      (ammUninitialised.applySell 5).1.virtualSolReserves =
        ammUninitialised.virtualSolReserves ∧
      (ammUninitialised.applySell 5).1.realSolReserves = ammUninitialised.realSolReserves ∧
      (ammUninitialised.applySell 5).1.initialVirtualTokenReserves =
        ammUninitialised.initialVirtualTokenReserves :=
  ⟨rfl, (C13_failure_state ammUninitialised 5).1 ⟨_, rfl⟩, rfl,
    (C13_failure_state ammUninitialised 5).2 ⟨_, rfl⟩⟩

/-- C14: every successful `applyBuy` and every successful `applySell` leaves
the differences `virtualTokenReserves - realTokenReserves` and
`virtualSolReserves - realSolReserves` unchanged; both differences are the same
after any sequence of calls, so that `realTokenReserves <= virtualTokenReserves`
holds after the sequence when it holds before it. -/
theorem C14_lockstep (s : AMM) (calls : List AMMCall) :
    (∀ t r, (s.applyBuy t).2 = Except.ok r →
        (s.applyBuy t).1.virtualTokenReserves - (s.applyBuy t).1.realTokenReserves =
          s.virtualTokenReserves - s.realTokenReserves ∧
        (s.applyBuy t).1.virtualSolReserves - (s.applyBuy t).1.realSolReserves =
          s.virtualSolReserves - s.realSolReserves) ∧
      (∀ t r, (s.applySell t).2 = Except.ok r →
        (s.applySell t).1.virtualTokenReserves - (s.applySell t).1.realTokenReserves =
          s.virtualTokenReserves - s.realTokenReserves ∧
        (s.applySell t).1.virtualSolReserves - (s.applySell t).1.realSolReserves =
          s.virtualSolReserves - s.realSolReserves) ∧
      (s.afterCalls calls).virtualTokenReserves - (s.afterCalls calls).realTokenReserves =
        s.virtualTokenReserves - s.realTokenReserves ∧
      (s.afterCalls calls).virtualSolReserves - (s.afterCalls calls).realSolReserves =
        s.virtualSolReserves - s.realSolReserves ∧
      (s.realTokenReserves ≤ s.virtualTokenReserves →
        (s.afterCalls calls).realTokenReserves ≤ (s.afterCalls calls).virtualTokenReserves) := by
  have hrun := AMM.afterCalls_differences calls s
  refine ⟨fun t _ _ => AMM.applyBuy_differences s t,
    fun t _ _ => AMM.applySell_differences s t, hrun.1, hrun.2, ?_⟩
  intro h
  omega

/-- Witness of C14: a buy, a sell and a buy beyond the real reserve on `ammA`. -/
theorem C14_lockstep_witness :
    (ammA.afterCalls [AMMCall.buy 100000000, AMMCall.sell 50000000,
        AMMCall.buy 900000000]).virtualTokenReserves -
        (ammA.afterCalls [AMMCall.buy 100000000, AMMCall.sell 50000000,
          AMMCall.buy 900000000]).realTokenReserves =
        ammA.virtualTokenReserves - ammA.realTokenReserves ∧
      (ammA.afterCalls [AMMCall.buy 100000000, AMMCall.sell 50000000,
        AMMCall.buy 900000000]).realTokenReserves ≤
        (ammA.afterCalls [AMMCall.buy 100000000, AMMCall.sell 50000000,
          AMMCall.buy 900000000]).virtualTokenReserves :=
  ⟨(C14_lockstep ammA [AMMCall.buy 100000000, AMMCall.sell 50000000,
      AMMCall.buy 900000000]).2.2.1,
    (C14_lockstep ammA [AMMCall.buy 100000000, AMMCall.sell 50000000,
      AMMCall.buy 900000000]).2.2.2.2 (by decide)⟩


/-! ## Auxiliary facts on the conversion to `Number` -/

/-- Below `2 ^ 53` no bit is dropped. -/
theorem doubleShift_of_lt (fuel n : Nat) (h : n < 2 ^ 53) : doubleShift fuel n = 0 := by
  cases fuel with
  | zero => rfl
  | succ k => simp only [doubleShift, h, ↓reduceIte]

/-- The halvings allowed by `doubleShift n n` suffice: what is left of `n`
fits into the 53-bit significand. -/
theorem doubleShift_spec (fuel n : Nat) (h : n ≤ fuel) :
    n / 2 ^ doubleShift fuel n < 2 ^ 53 := by
  induction fuel generalizing n with
  | zero =>
    have h0 : n = 0 := by omega
    subst h0
    simp [doubleShift]
  | succ k ih =>
    by_cases hn : n < 2 ^ 53
    · simp only [doubleShift, hn, ↓reduceIte, Nat.pow_zero, Nat.div_one]
    · have hk : n / 2 ≤ k := by omega
      have := ih (n / 2) hk
      simp only [doubleShift, hn, ↓reduceIte]
      rw [Nat.pow_succ, Nat.mul_comm, ← Nat.div_div_eq_div_mul]
      exact this

/-- The dropped bits weigh at most `n` itself. -/
theorem two_pow_doubleShift_le (fuel n : Nat) : 2 ^ doubleShift fuel n ≤ max 1 n := by
  induction fuel generalizing n with
  | zero => simp [doubleShift]
  | succ k ih =>
    by_cases hn : n < 2 ^ 53
    · simp only [doubleShift, hn, ↓reduceIte, Nat.pow_zero]
      omega
    · have := ih (n / 2)
      simp only [doubleShift, hn, ↓reduceIte]
      rw [Nat.pow_succ]
      have h2 : 2 ≤ n := by
        have : (2 : Nat) ≤ 2 ^ 53 := by norm_num
        omega
      omega

/-- A natural number below `2 ^ 53` is a double. -/
theorem roundToDouble_of_lt (n : Nat) (h : n < 2 ^ 53) : roundToDouble n = n := by
  simp only [roundToDouble, doubleShift_of_lt n n h, Nat.pow_zero, Nat.div_one, Nat.mod_one,
    Nat.mul_zero, Nat.mul_one, Nat.zero_lt_one, ↓reduceIte]

/-- Rounding to a double at most doubles a positive number. -/
theorem roundToDouble_le (n : Nat) : roundToDouble n ≤ n + max 1 n := by
  unfold roundToDouble
  have hp := two_pow_doubleShift_le n n
  generalize doubleShift n n = sh at hp ⊢
  have hq : n / 2 ^ sh * 2 ^ sh ≤ n := Nat.div_mul_le_self n (2 ^ sh)
  have hm : ∀ m, m ≤ n / 2 ^ sh + 1 → m * 2 ^ sh ≤ n + max 1 n := by
    intro m hm
    calc m * 2 ^ sh ≤ (n / 2 ^ sh + 1) * 2 ^ sh := Nat.mul_le_mul_right _ hm
      _ = n / 2 ^ sh * 2 ^ sh + 2 ^ sh := by rw [Nat.add_mul, Nat.one_mul]
      _ ≤ n + max 1 n := Nat.add_le_add hq hp
  apply hm
  split
  · omega
  · split
    · omega
    · split <;> omega

/-- The conversion `Number(x)` is exact for `0 <= x < 2 ^ 53`. -/
theorem numberOfBigInt_of_lt (x : Int) (h0 : 0 ≤ x) (h : x < 2 ^ 53) :
    numberOfBigInt x = JSNumber.finite x := by
  have hn : x.natAbs < 2 ^ 53 := by omega
  have hr := roundToDouble_of_lt x.natAbs hn
  have hlt : ¬ (2 ^ 1024 ≤ x.natAbs) := by
    have : (2 : Nat) ^ 53 ≤ 2 ^ 1024 := Nat.pow_le_pow_right (by decide) (by decide)
    omega
  simp only [numberOfBigInt, hr, hlt, h0, ↓reduceIte]
  congr 1
  omega

/-- The conversion `Number(x)` is finite for `0 <= x < 2 ^ 1023`. -/
theorem numberOfBigInt_finite (x : Int) (h0 : 0 ≤ x) (h : x < 2 ^ 1023) :
    ∃ v, numberOfBigInt x = JSNumber.finite v := by
  have hn : x.natAbs < 2 ^ 1023 := by
    have : ((x.natAbs : Nat) : Int) < ((2 ^ 1023 : Nat) : Int) := by
      rw [Int.natAbs_of_nonneg h0]
      exact_mod_cast h
    exact_mod_cast this
  have hr := roundToDouble_le x.natAbs
  have hlt : ¬ (2 ^ 1024 ≤ roundToDouble x.natAbs) := by
    have h2 : (2 : Nat) ^ 1024 = 2 * 2 ^ 1023 := by rw [Nat.pow_succ, Nat.mul_comm]
    rw [h2]
    generalize (2 : Nat) ^ 1023 = B at hn
    omega
  exact ⟨(roundToDouble x.natAbs : Int), by simp only [numberOfBigInt, hlt, h0, ↓reduceIte]⟩

/-- The conversion `Number(x)` of a negative `x` is below `1`: the call
`Math.max(1, Number(x))` returns `1`. -/
theorem mathMax_one_of_nonpos (x : Int) (h : x ≤ 0) :
    mathMax (JSNumber.finite 1) (numberOfBigInt x) = JSNumber.finite 1 := by
  by_cases h0 : 0 ≤ x
  · have hx : x = 0 := by omega
    subst hx
    rfl
  · unfold numberOfBigInt
    simp only [h0, ↓reduceIte]
    split
    · rfl
    · simp only [mathMax]
      congr 1
      split <;> omega

/-- The reduction `BigInt(Math.max(1, Number(x)))`, when it is returned, is at
least `1`. -/
theorem reduction_ge_one (x r : Int)
    (h : bigIntOfNumber (mathMax (JSNumber.finite 1) (numberOfBigInt x)) = Except.ok r) :
    1 ≤ r := by
  revert h
  cases numberOfBigInt x with
  | finite v =>
    simp only [mathMax, bigIntOfNumber]
    intro h
    injection h with h
    subst h
    split <;> omega
  | posInf => simp [mathMax, bigIntOfNumber]
  | negInf =>
    simp only [mathMax, bigIntOfNumber]
    intro h
    injection h with h
    omega

/-- The reduction is returned when `x < 2 ^ 1023`. -/
theorem reduction_returns (x : Int) (h : x < 2 ^ 1023) :
    ∃ r, bigIntOfNumber (mathMax (JSNumber.finite 1) (numberOfBigInt x)) = Except.ok r := by
  rcases Int.lt_or_le x 0 with hneg | hpos
  · rw [mathMax_one_of_nonpos x (by omega)]
    exact ⟨1, rfl⟩
  · obtain ⟨v, hv⟩ := numberOfBigInt_finite x hpos h
    rw [hv]
    exact ⟨_, rfl⟩

/-- The quotient `a * b / 10000n` is at most `a` for `a >= 0` and a rate `b`
in `0..10000`, and at most `0` for `a < 0`. -/
theorem tdiv_rate_le (a b : Int) (hb0 : 0 ≤ b) (hb1 : b ≤ 10000) :
    Int.tdiv (a * b) 10000 ≤ max a 0 := by
  rcases Int.lt_or_le a 0 with hneg | hpos
  · have hab : 0 ≤ (-a) * b := Int.mul_nonneg (by omega) hb0
    have h1 : 0 ≤ Int.tdiv ((-a) * b) 10000 := Int.tdiv_nonneg hab (by omega)
    have h2 : Int.tdiv ((-a) * b) 10000 = -(Int.tdiv (a * b) 10000) := by
      rw [Int.neg_mul, Int.neg_tdiv]
    omega
  · have hab : 0 ≤ a * b := Int.mul_nonneg hpos hb0
    rw [Int.tdiv_eq_ediv hab (by omega)]
    have : a * b / 10000 ≤ a := by
      apply Int.ediv_le_of_le_mul (by omega)
      nlinarith
    omega

/-- Every value returned by `calculateWithSlippageSell` is below the amount. -/
theorem calculateWithSlippageSell_lt (amount : Int) (bps : Option Int) (r : Int)
    (h : calculateWithSlippageSell amount bps = Except.ok r) : r ≤ amount - 1 := by
  unfold calculateWithSlippageSell at h
  simp only at h
  cases hred : bigIntOfNumber (mathMax (JSNumber.finite 1)
      (numberOfBigInt (Int.tdiv (amount * bps.getD 500) 10000))) with
  | error e => simp [hred] at h
  | ok v =>
    have hv := reduction_ge_one _ _ hred
    simp only [hred] at h
    injection h with h
    omega

/-- The function `calculateWithSlippageSell` returns when the amount is below
`2 ^ 1023` and the rate is in `0..10000`. -/
theorem calculateWithSlippageSell_returns (amount bps : Int) (hb0 : 0 ≤ bps)
    (hb1 : bps ≤ 10000) (h : amount < 2 ^ 1023) :
    ∃ r, calculateWithSlippageSell amount (some bps) = Except.ok r := by
  have hx : Int.tdiv (amount * bps) 10000 < 2 ^ 1023 := by
    have h1 := tdiv_rate_le amount bps hb0 hb1
    have h2 : (0 : Int) < 2 ^ 1023 := by positivity
    generalize (2 : Int) ^ 1023 = B at h h2 ⊢
    omega
  obtain ⟨v, hv⟩ := reduction_returns _ hx
  exact ⟨amount - v, by simp only [calculateWithSlippageSell, Option.getD_some, hv]⟩

/-- The function `calculateWithSlippageSell` follows the exact formula as long
as the quotient is below `2 ^ 53`. -/
theorem calculateWithSlippageSell_exact (amount : Int) (bps : Option Int)
    (h0 : 0 ≤ Int.tdiv (amount * bps.getD 500) 10000)
    (h : Int.tdiv (amount * bps.getD 500) 10000 < 2 ^ 53) :
    calculateWithSlippageSell amount bps =
      Except.ok (amount - max 1 (Int.tdiv (amount * bps.getD 500) 10000)) := by
  simp only [calculateWithSlippageSell, numberOfBigInt_of_lt _ h0 h, mathMax, bigIntOfNumber]
  congr 2
  split <;> omega

/-! ## The claims on the slippage helpers -/

/-- C15 fails on the code at quotes whose reduction does not fit into a
double: for the quote `2 ^ 53 + 1` and the maximal quote `2 ^ 64 - 1`, both with
`10000` basis points, the formula gives `0` while `calculateWithSlippageSell`
returns `1` and `-1`; with the default rate and the quote `180143985094819860`
it returns one more than the formula. -/
theorem C15_calculateWithSlippageSell_rounding :
    calculateWithSlippageSell 9007199254740993 (some 10000) = Except.ok 1 ∧
      specSlippageSell 9007199254740993 10000 = 0 ∧
      calculateWithSlippageSell 18446744073709551615 (some 10000) = Except.ok (-1) ∧
      specSlippageSell 18446744073709551615 10000 = 0 ∧
      calculateWithSlippageSell 180143985094819860 none = Except.ok 171136785840078868 ∧
      specSlippageSell 180143985094819860 500 = 171136785840078867 :=
  ⟨rfl, rfl, rfl, rfl, rfl, rfl⟩

/-- C16, as stated, fails in Scenario C: `calculateWithSlippageSell(1, 500)`
returns `0`, not `1`. -/
theorem C16_calculateWithSlippageSell_zero_counterexample :
    (1 : Int) ≤ 1 ∧ (0 : Int) ≤ 500 ∧ (500 : Int) ≤ 10000 ∧
      calculateWithSlippageSell 1 (some 500) = Except.ok 0 :=
  ⟨by decide, by decide, by decide, rfl⟩

/-- C16 (amended): the floor at `1` is applied by the callers `sell` and
`getSellInstructionsByTokenAmount`, not by `calculateWithSlippageSell`: for
every `quotedSolOutput >= 1` and every rate in `0..10000`, every value of
`sellAmountWithSlippage` that they pass on is at least `1`, and for
`quotedSolOutput < 2 ^ 1023` such a value is computed. -/
theorem C16_sellAmountWithSlippage_ge_one (quotedSolOutput slippageBasisPoints : Int)
    (_hq : 1 ≤ quotedSolOutput) (hb0 : 0 ≤ slippageBasisPoints)
    (hb1 : slippageBasisPoints ≤ 10000) :
    (∀ r, sellAmountWithSlippage quotedSolOutput slippageBasisPoints = Except.ok r → 1 ≤ r) ∧
      (quotedSolOutput < 2 ^ 1023 →
        ∃ r, sellAmountWithSlippage quotedSolOutput slippageBasisPoints = Except.ok r ∧
          1 ≤ r) := by
  have hall : ∀ r, sellAmountWithSlippage quotedSolOutput slippageBasisPoints = Except.ok r →
      1 ≤ r := by
    intro r h
    unfold sellAmountWithSlippage at h
    cases hv : calculateWithSlippageSell quotedSolOutput (some slippageBasisPoints) with
    | error e => simp [hv] at h
    | ok v =>
      simp only [hv] at h
      injection h with h
      subst h
      split <;> omega
  refine ⟨hall, fun hlt => ?_⟩
  obtain ⟨v, hv⟩ := calculateWithSlippageSell_returns quotedSolOutput slippageBasisPoints
    hb0 hb1 hlt
  have hr : sellAmountWithSlippage quotedSolOutput slippageBasisPoints =
      Except.ok (if v < 1 then 1 else v) := by
    simp only [sellAmountWithSlippage, hv]
  exact ⟨_, hr, hall _ hr⟩

/-- Witness of C16 (amended), Scenario C: the quote `1` at `500` basis
points is passed on as `1`. -/
theorem C16_sellAmountWithSlippage_ge_one_witness :
    (∀ r, sellAmountWithSlippage 1 500 = Except.ok r → 1 ≤ r) ∧
      ((1 : Int) < 2 ^ 1023 → ∃ r, sellAmountWithSlippage 1 500 = Except.ok r ∧ 1 ≤ r) :=
  C16_sellAmountWithSlippage_ge_one 1 500 (by decide) (by decide) (by decide)

/-- C17: for `quotedSolCost >= 0` and `slippageBasisPoints >= 0`,
`calculateWithSlippageBuy(quotedSolCost, slippageBasisPoints)` equals
`quotedSolCost + floor(quotedSolCost * slippageBasisPoints / 10000)`; it is at
least `quotedSolCost`, and `10000` times the excess is at most
`quotedSolCost * slippageBasisPoints`. -/
theorem C17_calculateWithSlippageBuy (quotedSolCost slippageBasisPoints : Int)
    (hq : 0 ≤ quotedSolCost) (hb : 0 ≤ slippageBasisPoints) :
    calculateWithSlippageBuy quotedSolCost slippageBasisPoints =
        quotedSolCost + quotedSolCost * slippageBasisPoints / 10000 ∧
      quotedSolCost ≤ calculateWithSlippageBuy quotedSolCost slippageBasisPoints ∧
      (calculateWithSlippageBuy quotedSolCost slippageBasisPoints - quotedSolCost) * 10000 ≤
        quotedSolCost * slippageBasisPoints := by
  have hn : 0 ≤ quotedSolCost * slippageBasisPoints := Int.mul_nonneg hq hb
  have heq : calculateWithSlippageBuy quotedSolCost slippageBasisPoints =
      quotedSolCost + quotedSolCost * slippageBasisPoints / 10000 := by
    unfold calculateWithSlippageBuy
    rw [Int.tdiv_eq_ediv hn (by omega)]
  have h0 : 0 ≤ quotedSolCost * slippageBasisPoints / 10000 := Int.ediv_nonneg hn (by omega)
  have hle : quotedSolCost * slippageBasisPoints / 10000 * 10000 ≤
      quotedSolCost * slippageBasisPoints := Int.ediv_mul_le _ (by omega)
  rw [heq]
  refine ⟨rfl, by omega, ?_⟩
  have : quotedSolCost + quotedSolCost * slippageBasisPoints / 10000 - quotedSolCost =
      quotedSolCost * slippageBasisPoints / 10000 := by omega
  rw [this]
  exact hle

/-- Witness of C17: a cost of `1000` lamports at `525` basis points. -/
theorem C17_calculateWithSlippageBuy_witness :
    calculateWithSlippageBuy 1000 525 = 1000 + 1000 * 525 / 10000 ∧
      (1000 : Int) ≤ calculateWithSlippageBuy 1000 525 ∧
      (calculateWithSlippageBuy 1000 525 - 1000) * 10000 ≤ 1000 * 525 :=
  C17_calculateWithSlippageBuy 1000 525 (by decide) (by decide)

/-- C18: for `quote >= 0` and a rate in `0..10000`, every value returned by
`calculateWithSlippageSell(quote, bps)` is at most `quote`, and so is every
value returned by applying the function to that value again; for
`quote < 2 ^ 1023` both calls return. -/
theorem C18_calculateWithSlippageSell_twice (quote bps : Int) (_hq : 0 ≤ quote)
    (hb0 : 0 ≤ bps) (hb1 : bps ≤ 10000) :
    (∀ r1, calculateWithSlippageSell quote (some bps) = Except.ok r1 →
        r1 ≤ quote ∧
        ∀ r2, calculateWithSlippageSell r1 (some bps) = Except.ok r2 → r2 ≤ quote) ∧
      (quote < 2 ^ 1023 →
        ∃ r1 r2, calculateWithSlippageSell quote (some bps) = Except.ok r1 ∧
          calculateWithSlippageSell r1 (some bps) = Except.ok r2 ∧
          r1 ≤ quote ∧ r2 ≤ quote) := by
  have hall : ∀ r1, calculateWithSlippageSell quote (some bps) = Except.ok r1 →
      r1 ≤ quote ∧
      ∀ r2, calculateWithSlippageSell r1 (some bps) = Except.ok r2 → r2 ≤ quote := by
    intro r1 h1
    have hr1 := calculateWithSlippageSell_lt quote (some bps) r1 h1
    refine ⟨by omega, fun r2 h2 => ?_⟩
    have hr2 := calculateWithSlippageSell_lt r1 (some bps) r2 h2
    omega
  refine ⟨hall, fun hlt => ?_⟩
  obtain ⟨r1, h1⟩ := calculateWithSlippageSell_returns quote bps hb0 hb1 hlt
  have hr1 := calculateWithSlippageSell_lt quote (some bps) r1 h1
  obtain ⟨r2, h2⟩ := calculateWithSlippageSell_returns r1 bps hb0 hb1 (by omega)
  exact ⟨r1, r2, h1, h2, (hall r1 h1).1, (hall r1 h1).2 r2 h2⟩

/-- Witness of C18: the quote `1000` at `500` basis points gives `950` and
then `903`. -/
theorem C18_calculateWithSlippageSell_twice_witness :
    (∀ r1, calculateWithSlippageSell 1000 (some 500) = Except.ok r1 →
        r1 ≤ 1000 ∧
        ∀ r2, calculateWithSlippageSell r1 (some 500) = Except.ok r2 → r2 ≤ 1000) ∧
      ((1000 : Int) < 2 ^ 1023 →
        ∃ r1 r2, calculateWithSlippageSell 1000 (some 500) = Except.ok r1 ∧
          calculateWithSlippageSell r1 (some 500) = Except.ok r2 ∧
          r1 ≤ 1000 ∧ r2 ≤ 1000) :=
  C18_calculateWithSlippageSell_twice 1000 500 (by decide) (by decide) (by decide)

/-! ## The claims on the fee of `getSellPrice` -/

/-- C19: on a non-complete curve with non-negative reserves, for
`tokensIn >= 0` and `feeBasisPoints > 0`, both quotes are returned and
`getSellPrice(tokensIn, 0) >= getSellPrice(tokensIn, feeBasisPoints)`. -/
theorem C19_getSellPrice_fee_not_increasing (c : BondingCurveAccount)
    (tokensIn feeBasisPoints : Int) (hc : c.complete = false) (hr : c.NonNegReserves)
    (hin : 0 ≤ tokensIn) (hfee : 0 < feeBasisPoints) :
    ∃ g n, c.getSellPrice tokensIn 0 = Except.ok g ∧
      c.getSellPrice tokensIn feeBasisPoints = Except.ok n ∧ g ≥ n := by
  obtain ⟨ht, hs, -, -⟩ := hr
  rcases Int.lt_or_le 0 tokensIn with hpos | hzero
  · have hn : 0 ≤ tokensIn * c.virtualSolReserves := Int.mul_nonneg hin hs
    have hg : 0 ≤ tokensIn * c.virtualSolReserves / (c.virtualTokenReserves + tokensIn) :=
      Int.ediv_nonneg hn (by omega)
    have hf : 0 ≤ tokensIn * c.virtualSolReserves / (c.virtualTokenReserves + tokensIn) *
        feeBasisPoints / 10000 :=
      Int.ediv_nonneg (Int.mul_nonneg hg (by omega)) (by omega)
    refine ⟨_, _, BondingCurveAccount.getSellPrice_of_pos c tokensIn 0 hc hpos ht hs (le_refl 0),
      BondingCurveAccount.getSellPrice_of_pos c tokensIn feeBasisPoints hc hpos ht hs
        (by omega), ?_⟩
    simp only [Int.mul_zero, Int.zero_ediv, Int.sub_zero]
    omega
  · exact ⟨0, 0, BondingCurveAccount.getSellPrice_of_nonpos c tokensIn 0 hc hzero,
      BondingCurveAccount.getSellPrice_of_nonpos c tokensIn feeBasisPoints hc hzero,
      le_refl 0⟩

/-- Witness of C19: selling one million tokens into Scenario A at one per
cent. -/
theorem C19_getSellPrice_fee_not_increasing_witness :
    ∃ g n, scenarioA.getSellPrice 1000000 0 = Except.ok g ∧
      scenarioA.getSellPrice 1000000 100 = Except.ok n ∧ g ≥ n :=
  C19_getSellPrice_fee_not_increasing scenarioA 1000000 100 rfl (by decide) (by decide)
    (by decide)

/-- C20, as stated, fails in Scenario A: the virtual reserves are positive,
one token is sold at a fee of `100` basis points, and the quote is `29` with and
without the fee. -/
theorem C20_getSellPrice_fee_strict_counterexample :
    scenarioA.complete = false ∧ 0 < scenarioA.virtualTokenReserves ∧
      0 < scenarioA.virtualSolReserves ∧ (0 : Int) < 1 ∧ (0 : Int) < 100 ∧
      scenarioA.getSellPrice 1 100 = Except.ok 29 ∧
      scenarioA.getSellPrice 1 0 = Except.ok 29 :=
  ⟨rfl, by decide, by decide, by decide, by decide, rfl, rfl⟩

/-- C20 (amended): on a non-complete curve with positive virtual reserves, for
`tokensIn > 0` and `feeBasisPoints > 0`, both quotes are returned,
`getSellPrice(tokensIn, feeBasisPoints) <= getSellPrice(tokensIn, 0)`, and the
inequality is strict exactly when
`getSellPrice(tokensIn, 0) * feeBasisPoints >= 10000`. -/
theorem C20_getSellPrice_fee_strict_iff (c : BondingCurveAccount)
    (tokensIn feeBasisPoints : Int) (hc : c.complete = false)
    (ht : 0 < c.virtualTokenReserves) (hs : 0 < c.virtualSolReserves)
    (hin : 0 < tokensIn) (hfee : 0 < feeBasisPoints) :
    ∃ g n, c.getSellPrice tokensIn 0 = Except.ok g ∧
      c.getSellPrice tokensIn feeBasisPoints = Except.ok n ∧ n ≤ g ∧
      (n < g ↔ 10000 ≤ g * feeBasisPoints) := by
  have hn : 0 ≤ tokensIn * c.virtualSolReserves := Int.mul_nonneg (by omega) (by omega)
  have hg : 0 ≤ tokensIn * c.virtualSolReserves / (c.virtualTokenReserves + tokensIn) :=
    Int.ediv_nonneg hn (by omega)
  have hf : 0 ≤ tokensIn * c.virtualSolReserves / (c.virtualTokenReserves + tokensIn) *
      feeBasisPoints / 10000 :=
    Int.ediv_nonneg (Int.mul_nonneg hg (by omega)) (by omega)
  have hiff := @Int.le_ediv_iff_mul_le 1
    (tokensIn * c.virtualSolReserves / (c.virtualTokenReserves + tokensIn) * feeBasisPoints)
    10000 (by omega)
  have h0 : c.getSellPrice tokensIn 0 = Except.ok
      (tokensIn * c.virtualSolReserves / (c.virtualTokenReserves + tokensIn)) := by
    rw [BondingCurveAccount.getSellPrice_of_pos c tokensIn 0 hc hin (by omega) (by omega)
      (le_refl 0)]
    simp only [Int.mul_zero, Int.zero_ediv, Int.sub_zero]
  refine ⟨_, _, h0, BondingCurveAccount.getSellPrice_of_pos c tokensIn feeBasisPoints hc hin
    (by omega) (by omega) (by omega), by omega, ?_⟩
  rw [Int.one_mul] at hiff
  rw [← hiff]
  omega

/-- Witness of C20 (amended): selling one million tokens into Scenario A at
one per cent. -/
theorem C20_getSellPrice_fee_strict_iff_witness :
    ∃ g n, scenarioA.getSellPrice 1000000 0 = Except.ok g ∧
      scenarioA.getSellPrice 1000000 100 = Except.ok n ∧ n ≤ g ∧
      (n < g ↔ 10000 ≤ g * 100) :=
  C20_getSellPrice_fee_strict_iff scenarioA 1000000 100 rfl (by decide) (by decide)
    (by decide) (by decide)

/-! ## Auxiliary facts on the market-cap methods and on `GlobalAccount` -/

namespace BondingCurveAccount

/-- The sell quote without fee is the gross amount. -/
theorem getSellPrice_zero_fee (c : BondingCurveAccount) (amount : Int)
    (hc : c.complete = false) (ha : 0 < amount) (ht : 0 ≤ c.virtualTokenReserves)
    (hs : 0 ≤ c.virtualSolReserves) :
    c.getSellPrice amount 0 = Except.ok
      (amount * c.virtualSolReserves / (c.virtualTokenReserves + amount)) := by
  rw [getSellPrice_of_pos c amount 0 hc ha ht hs (le_refl 0)]
  simp only [Int.mul_zero, Int.zero_ediv, Int.sub_zero]

/-- The outcome of `getBuyOutPrice` on every input. -/
theorem getBuyOutPrice_eq (c : BondingCurveAccount) (amount fee : Int) :
    c.getBuyOutPrice amount fee =
      (if c.virtualTokenReserves - max amount c.virtualTokenReserves = 0 then
        Except.error Err.divisionByZero
       else Except.ok
        (Int.tdiv (c.virtualSolReserves * max amount c.virtualTokenReserves)
            (c.virtualTokenReserves - max amount c.virtualTokenReserves) + 1 +
          Int.tdiv ((Int.tdiv (c.virtualSolReserves * max amount c.virtualTokenReserves)
            (c.virtualTokenReserves - max amount c.virtualTokenReserves) + 1) * fee) 10000)) := by
  have hmax : (if amount < c.virtualTokenReserves then c.virtualTokenReserves else amount) =
      max amount c.virtualTokenReserves := by
    split <;> omega
  simp only [getBuyOutPrice, hmax]
  by_cases hd : c.virtualTokenReserves - max amount c.virtualTokenReserves = 0
  · simp only [hd, bigDiv_zero, ↓reduceIte]
  · simp only [hd, ↓reduceIte, bigDiv_of_ne_zero _ _ hd,
      bigDiv_of_ne_zero _ _ (show (10000 : Int) ≠ 0 by omega),
      Int.mul_comm (max amount c.virtualTokenReserves) c.virtualSolReserves]

/-- The method `getFinalMarketCapSOL` throws whenever the real token reserve
does not exceed the virtual one: its first statement buys out
`realTokenReserves`, which `getBuyOutPrice` raises to `virtualTokenReserves`. -/
theorem getFinalMarketCapSOL_of_le (c : BondingCurveAccount) (fee : Int)
    (h : c.realTokenReserves ≤ c.virtualTokenReserves) :
    c.getFinalMarketCapSOL fee = Except.error Err.divisionByZero := by
  have hd : c.virtualTokenReserves - max c.realTokenReserves c.virtualTokenReserves = 0 := by
    omega
  have hb : c.getBuyOutPrice c.realTokenReserves fee = Except.error Err.divisionByZero := by
    rw [getBuyOutPrice_eq, if_pos hd]
  simp only [getFinalMarketCapSOL, hb]

end BondingCurveAccount

/-- The method `getInitialBuyPrice` runs the statements of
`BondingCurveAccount.getBuyPrice` on the initial reserves. -/
theorem getInitialBuyPrice_eq_getBuyPrice (g : GlobalAccount) (c : BondingCurveAccount)
    (amount : Int) (hc : c.complete = false)
    (hs : c.virtualSolReserves = g.initialVirtualSolReserves)
    (ht : c.virtualTokenReserves = g.initialVirtualTokenReserves)
    (hr : c.realTokenReserves = g.initialRealTokenReserves) :
    g.getInitialBuyPrice amount = c.getBuyPrice amount := by
  simp only [GlobalAccount.getInitialBuyPrice, BondingCurveAccount.getBuyPrice, hc, hs, ht, hr,
    Bool.false_eq_true, ↓reduceIte]

/-- The quotient in the buy formula stays below the token reserve it is taken
from. -/
theorem buy_quotient_lt (vSol vTok amount : Int) (hs : 0 ≤ vSol) (ht : 0 < vTok)
    (ha : 0 < amount) : vSol * vTok / (vSol + amount) < vTok := by
  rw [Int.ediv_lt_iff_lt_mul (by omega)]
  have : 0 < vTok * amount := Int.mul_pos ht ha
  nlinarith

/-- The buy quote is non-negative on a curve with a positive virtual token
reserve. -/
theorem getBuyPrice_nonneg_of_pos (c : BondingCurveAccount) (amount : Int)
    (hc : c.complete = false) (hs : 0 ≤ c.virtualSolReserves)
    (ht : 0 < c.virtualTokenReserves) (hrt : 0 ≤ c.realTokenReserves) (ha : 0 < amount) :
    ∃ v, c.getBuyPrice amount = Except.ok v ∧ 0 ≤ v := by
  refine ⟨_, BondingCurveAccount.getBuyPrice_of_pos c amount hc ha hs
    (Int.mul_nonneg hs (by omega)), ?_⟩
  have hq := buy_quotient_lt c.virtualSolReserves c.virtualTokenReserves amount hs ht ha
  exact le_min (by omega) hrt

/-! ## The claims on fees, market caps and the initial quote -/

/-- C21: on a non-complete curve with non-negative reserves, for `tokensIn > 0`
and `feeBasisPoints` in `0..10000`, with `gross = getSellPrice(tokensIn, 0)` and
`net = getSellPrice(tokensIn, feeBasisPoints)`, the deducted fee `gross - net`
satisfies `0 <= fee` and `fee * 10000 <= gross * feeBasisPoints`, and
`0 <= net <= gross`. -/
theorem C21_getSellPrice_fee_bounds (c : BondingCurveAccount) (tokensIn feeBasisPoints : Int)
    (hc : c.complete = false) (hr : c.NonNegReserves) (hin : 0 < tokensIn)
    (hf0 : 0 ≤ feeBasisPoints) (hf1 : feeBasisPoints ≤ 10000) :
    ∃ gross net, c.getSellPrice tokensIn 0 = Except.ok gross ∧
      c.getSellPrice tokensIn feeBasisPoints = Except.ok net ∧
      0 ≤ gross - net ∧ (gross - net) * 10000 ≤ gross * feeBasisPoints ∧
      0 ≤ net ∧ net ≤ gross := by
  obtain ⟨ht, hs, -, -⟩ := hr
  have hn : 0 ≤ tokensIn * c.virtualSolReserves := Int.mul_nonneg (by omega) hs
  have hg : 0 ≤ tokensIn * c.virtualSolReserves / (c.virtualTokenReserves + tokensIn) :=
    Int.ediv_nonneg hn (by omega)
  refine ⟨_, _, BondingCurveAccount.getSellPrice_zero_fee c tokensIn hc hin ht hs,
    BondingCurveAccount.getSellPrice_of_pos c tokensIn feeBasisPoints hc hin ht hs hf0, ?_⟩
  generalize tokensIn * c.virtualSolReserves / (c.virtualTokenReserves + tokensIn) = g at hg
  have hfee0 : 0 ≤ g * feeBasisPoints / 10000 :=
    Int.ediv_nonneg (Int.mul_nonneg hg hf0) (by omega)
  have hfee1 : g * feeBasisPoints / 10000 * 10000 ≤ g * feeBasisPoints :=
    Int.ediv_mul_le _ (by omega)
  have hfee2 : g * feeBasisPoints / 10000 ≤ g := by
    apply Int.ediv_le_of_le_mul (by omega)
    nlinarith
  have hsub : g - (g - g * feeBasisPoints / 10000) = g * feeBasisPoints / 10000 := by omega
  rw [hsub]
  exact ⟨hfee0, hfee1, by omega, by omega⟩

/-- Witness of C21: selling one million tokens into Scenario A at one per
cent. -/
theorem C21_getSellPrice_fee_bounds_witness :
    ∃ gross net, scenarioA.getSellPrice 1000000 0 = Except.ok gross ∧
      scenarioA.getSellPrice 1000000 100 = Except.ok net ∧
      0 ≤ gross - net ∧ (gross - net) * 10000 ≤ gross * 100 ∧
      0 ≤ net ∧ net ≤ gross :=
  C21_getSellPrice_fee_bounds scenarioA 1000000 100 rfl (by decide) (by decide) (by decide)
    (by decide)

/-- C22: for every global account `g`, every amount and every non-complete
curve whose `virtualSolReserves`, `virtualTokenReserves` and
`realTokenReserves` are the three initial reserves of `g`,
`g.getInitialBuyPrice(amount)` has the outcome of `getBuyPrice(amount)` on that
curve; a returned value does not exceed `initialRealTokenReserves`, given that
this field is non-negative or the amount positive. -/
theorem C22_getInitialBuyPrice_refines (g : GlobalAccount) (c : BondingCurveAccount)
    (amount : Int) (hc : c.complete = false)
    (hs : c.virtualSolReserves = g.initialVirtualSolReserves)
    (ht : c.virtualTokenReserves = g.initialVirtualTokenReserves)
    (hr : c.realTokenReserves = g.initialRealTokenReserves) :
    g.getInitialBuyPrice amount = c.getBuyPrice amount ∧
      ∀ v, g.getInitialBuyPrice amount = Except.ok v →
        (0 ≤ g.initialRealTokenReserves ∨ 0 < amount) → v ≤ g.initialRealTokenReserves := by
  refine ⟨getInitialBuyPrice_eq_getBuyPrice g c amount hc hs ht hr, ?_⟩
  intro v hv hdom
  unfold GlobalAccount.getInitialBuyPrice at hv
  by_cases ha : amount ≤ 0
  · simp only [ha, ↓reduceIte] at hv
    injection hv with hv
    omega
  · simp only [ha, ↓reduceIte] at hv
    cases hq : bigDiv (g.initialVirtualSolReserves * g.initialVirtualTokenReserves)
        (g.initialVirtualSolReserves + amount) with
    | error e => simp [hq] at hv
    | ok q =>
      simp only [hq] at hv
      injection hv with hv
      subst hv
      split <;> omega

/-- Witness of C22: the global account and the curve of Scenario A, one
million lamports paid in. -/
theorem C22_getInitialBuyPrice_refines_witness :
    globalA.getInitialBuyPrice 1000000 = scenarioA.getBuyPrice 1000000 ∧
      ∀ v, globalA.getInitialBuyPrice 1000000 = Except.ok v →
        (0 ≤ globalA.initialRealTokenReserves ∨ (0 : Int) < 1000000) →
        v ≤ globalA.initialRealTokenReserves :=
  C22_getInitialBuyPrice_refines globalA scenarioA 1000000 rfl rfl rfl rfl

/-- C23: for every curve, `getMarketCapSOL()` returns `0` when
`virtualTokenReserves = 0`, and otherwise returns the truncated quotient of
`tokenTotalSupply * virtualSolReserves` by `virtualTokenReserves`, which is
`floor(tokenTotalSupply * virtualSolReserves / virtualTokenReserves)` for the
non-negative values that the fields hold; it never throws. -/
theorem C23_getMarketCapSOL (c : BondingCurveAccount) :
    (c.virtualTokenReserves = 0 → c.getMarketCapSOL = Except.ok 0) ∧
      (c.virtualTokenReserves ≠ 0 → c.getMarketCapSOL = Except.ok
        (Int.tdiv (c.tokenTotalSupply * c.virtualSolReserves) c.virtualTokenReserves)) ∧
      (0 < c.virtualTokenReserves → 0 ≤ c.tokenTotalSupply → 0 ≤ c.virtualSolReserves →
        c.getMarketCapSOL = Except.ok
          (c.tokenTotalSupply * c.virtualSolReserves / c.virtualTokenReserves)) := by
  refine ⟨fun h => ?_, fun h => ?_, fun ht hsup hs => ?_⟩
  · simp only [BondingCurveAccount.getMarketCapSOL, h, ↓reduceIte]
  · simp only [BondingCurveAccount.getMarketCapSOL, h, ↓reduceIte, bigDiv_of_ne_zero _ _ h]
  · have h : c.virtualTokenReserves ≠ 0 := by omega
    simp only [BondingCurveAccount.getMarketCapSOL, h, ↓reduceIte,
      bigDiv_of_nonneg_of_pos _ _ (Int.mul_nonneg hsup hs) ht]

/-- Witness of C23: the unfunded curve has market cap `0`, Scenario A has
market cap thirty billion lamports. -/
theorem C23_getMarketCapSOL_witness :
    curveEmpty.getMarketCapSOL = Except.ok 0 ∧
      scenarioA.getMarketCapSOL = Except.ok
        (scenarioA.tokenTotalSupply * scenarioA.virtualSolReserves /
          scenarioA.virtualTokenReserves) :=
  ⟨(C23_getMarketCapSOL curveEmpty).1 rfl,
    (C23_getMarketCapSOL scenarioA).2.2 (by decide) (by decide) (by decide)⟩

/-- C24: whenever `getBuyOutPrice(tokenAmount, feeBasisPoints)` returns, its
value is `totalSellValue + (totalSellValue * feeBasisPoints) / 10000` with
`solTokens = max(tokenAmount, virtualTokenReserves)` and `totalSellValue =
(virtualSolReserves * solTokens) / (virtualTokenReserves - solTokens) + 1`, the
division being the truncating one; it returns that value for every
`tokenAmount > virtualTokenReserves`. -/
theorem C24_getBuyOutPrice_value (c : BondingCurveAccount) (tokenAmount feeBasisPoints : Int) :
    (∀ v, c.getBuyOutPrice tokenAmount feeBasisPoints = Except.ok v →
        v = Int.tdiv (c.virtualSolReserves * max tokenAmount c.virtualTokenReserves)
              (c.virtualTokenReserves - max tokenAmount c.virtualTokenReserves) + 1 +
            Int.tdiv ((Int.tdiv (c.virtualSolReserves * max tokenAmount c.virtualTokenReserves)
              (c.virtualTokenReserves - max tokenAmount c.virtualTokenReserves) + 1) *
              feeBasisPoints) 10000) ∧
      (c.virtualTokenReserves < tokenAmount →
        c.getBuyOutPrice tokenAmount feeBasisPoints = Except.ok
          (Int.tdiv (c.virtualSolReserves * max tokenAmount c.virtualTokenReserves)
              (c.virtualTokenReserves - max tokenAmount c.virtualTokenReserves) + 1 +
            Int.tdiv ((Int.tdiv (c.virtualSolReserves * max tokenAmount c.virtualTokenReserves)
              (c.virtualTokenReserves - max tokenAmount c.virtualTokenReserves) + 1) *
              feeBasisPoints) 10000)) := by
  have heq := BondingCurveAccount.getBuyOutPrice_eq c tokenAmount feeBasisPoints
  constructor
  · intro v hv
    by_cases hd : c.virtualTokenReserves - max tokenAmount c.virtualTokenReserves = 0
    · rw [heq, if_pos hd] at hv
      simp at hv
    · rw [heq, if_neg hd] at hv
      injection hv with hv
      exact hv.symm
  · intro hlt
    have hd : c.virtualTokenReserves - max tokenAmount c.virtualTokenReserves ≠ 0 := by omega
    rw [heq, if_neg hd]

/-- Witness of C24: buying out two billion tokens from Scenario A at one per
cent gives `-60599999998`. -/
theorem C24_getBuyOutPrice_value_witness :
    scenarioA.getBuyOutPrice 2000000000 100 = Except.ok (-60599999998) ∧
      (-60599999998 : Int) =
        Int.tdiv (scenarioA.virtualSolReserves * max 2000000000 scenarioA.virtualTokenReserves)
              (scenarioA.virtualTokenReserves - max 2000000000 scenarioA.virtualTokenReserves) + 1 +
            Int.tdiv ((Int.tdiv
              (scenarioA.virtualSolReserves * max 2000000000 scenarioA.virtualTokenReserves)
              (scenarioA.virtualTokenReserves - max 2000000000 scenarioA.virtualTokenReserves) + 1) *
              100) 10000 :=
  ⟨rfl, (C24_getBuyOutPrice_value scenarioA 2000000000 100).1 (-60599999998) rfl⟩

/-- C25: `getBuyOutPrice(tokenAmount, feeBasisPoints)` fails with the
division-by-zero error exactly when `max(tokenAmount, virtualTokenReserves)`
equals `virtualTokenReserves`, that is exactly for
`tokenAmount <= virtualTokenReserves`, and returns a value for every
`tokenAmount > virtualTokenReserves`. -/
theorem C25_getBuyOutPrice_fails_iff (c : BondingCurveAccount)
    (tokenAmount feeBasisPoints : Int) :
    (c.getBuyOutPrice tokenAmount feeBasisPoints = Except.error Err.divisionByZero ↔
        max tokenAmount c.virtualTokenReserves = c.virtualTokenReserves) ∧
      (max tokenAmount c.virtualTokenReserves = c.virtualTokenReserves ↔
        tokenAmount ≤ c.virtualTokenReserves) ∧
      (c.virtualTokenReserves < tokenAmount →
        ∃ v, c.getBuyOutPrice tokenAmount feeBasisPoints = Except.ok v) := by
  have heq := BondingCurveAccount.getBuyOutPrice_eq c tokenAmount feeBasisPoints
  refine ⟨?_, by omega, fun hlt => ?_⟩
  · by_cases hd : c.virtualTokenReserves - max tokenAmount c.virtualTokenReserves = 0
    · rw [heq, if_pos hd]
      simp only [true_iff]
      omega
    · rw [heq, if_neg hd]
      constructor
      · intro h
        simp at h
      · intro h
        omega
  · have hd : c.virtualTokenReserves - max tokenAmount c.virtualTokenReserves ≠ 0 := by omega
    rw [heq, if_neg hd]
    exact ⟨_, rfl⟩

/-- Witness of C25: on Scenario A the amount `0` fails and two billion
tokens return. -/
theorem C25_getBuyOutPrice_fails_iff_witness :
    scenarioA.getBuyOutPrice 0 100 = Except.error Err.divisionByZero ∧
      ∃ v, scenarioA.getBuyOutPrice 2000000000 100 = Except.ok v :=
  ⟨(C25_getBuyOutPrice_fails_iff scenarioA 0 100).1.2 (by decide),
    (C25_getBuyOutPrice_fails_iff scenarioA 2000000000 100).2.2 (by decide)⟩

/-- C26 fails on the code: on a curve with `virtualTokenReserves =
realTokenReserves`, `getFinalMarketCapSOL(100)` throws the division-by-zero
error instead of returning `0`. -/
theorem C26_getFinalMarketCapSOL_throws :
    curveNoCushion.virtualTokenReserves = curveNoCushion.realTokenReserves ∧
      curveNoCushion.getFinalMarketCapSOL 100 = Except.error Err.divisionByZero ∧
      curveNoCushion.getFinalMarketCapSOL 100 ≠ Except.ok 0 :=
  ⟨rfl, rfl, by simp [BondingCurveAccount.getFinalMarketCapSOL_of_le curveNoCushion 100
    (by decide)]⟩

/-! ## The claims on exhausted reserves, zero and negative amounts -/

/-- C27, as stated, fails on `ammA`: the reserves are non-negative and two
billion tokens exceed the virtual token reserve, yet `AMM.getBuyPrice` returns
the price `0`. -/
theorem C27_getBuyPrice_exhausted_counterexample :
    ammA.NonNegReserves ∧ ammA.virtualTokenReserves ≤ 2000000000 ∧
      ammA.getBuyPrice 2000000000 = Except.ok 0 :=
  ⟨by decide, by decide, rfl⟩

/-- C27 (amended): on a state with non-negative reserves, for
`tokens >= virtualTokenReserves`, `AMM.getBuyPrice(tokens)` fails, with the
division-by-zero error, exactly when `tokens = virtualTokenReserves`; for
`tokens > virtualTokenReserves` it returns a price, which is `1` when
`virtualSolReserves = 0` and `0` otherwise. -/
theorem C27_getBuyPrice_exhausted (s : AMM) (tokens : Int) (hr : s.NonNegReserves)
    (hge : s.virtualTokenReserves ≤ tokens) :
    (tokens = s.virtualTokenReserves →
        s.getBuyPrice tokens = Except.error Err.divisionByZero) ∧
      (s.virtualTokenReserves < tokens →
        s.getBuyPrice tokens = Except.ok (if s.virtualSolReserves = 0 then 1 else 0)) ∧
      ((∃ e, s.getBuyPrice tokens = Except.error e) ↔ tokens = s.virtualTokenReserves) := by
  obtain ⟨hs, ht, -, -⟩ := hr
  have hfail : tokens = s.virtualTokenReserves →
      s.getBuyPrice tokens = Except.error Err.divisionByZero := by
    intro h
    have hd : s.virtualTokenReserves - tokens = 0 := by omega
    simp only [AMM.getBuyPrice, hd, bigDiv_zero]
  have hok : s.virtualTokenReserves < tokens →
      s.getBuyPrice tokens = Except.ok (if s.virtualSolReserves = 0 then 1 else 0) := by
    intro h
    have hd : s.virtualTokenReserves - tokens ≠ 0 := by omega
    have hq : Int.tdiv (s.virtualSolReserves * s.virtualTokenReserves)
        (s.virtualTokenReserves - tokens) ≤ 0 :=
      Int.tdiv_nonpos (Int.mul_nonneg hs ht) (by omega)
    simp only [AMM.getBuyPrice, bigDiv_of_ne_zero _ _ hd]
    congr 1
    by_cases h0 : s.virtualSolReserves = 0
    · simp [h0]
    · rw [if_neg h0]
      split <;> split <;> omega
  refine ⟨hfail, hok, ?_⟩
  constructor
  · rintro ⟨e, he⟩
    by_contra hne
    rw [hok (by omega)] at he
    simp at he
  · intro h
    exact ⟨_, hfail h⟩

/-- Witness of C27 (amended): two billion tokens quoted on `ammA`. -/
theorem C27_getBuyPrice_exhausted_witness :
    ((2000000000 : Int) = ammA.virtualTokenReserves →
        ammA.getBuyPrice 2000000000 = Except.error Err.divisionByZero) ∧
      (ammA.virtualTokenReserves < 2000000000 →
        ammA.getBuyPrice 2000000000 =
          Except.ok (if ammA.virtualSolReserves = 0 then 1 else 0)) ∧
      ((∃ e, ammA.getBuyPrice 2000000000 = Except.error e) ↔
        (2000000000 : Int) = ammA.virtualTokenReserves) :=
  C27_getBuyPrice_exhausted ammA 2000000000 (by decide) (by decide)

/-- C28: on every non-complete curve, whatever its reserves, and for every
fee rate, `getBuyPrice(0)` and `getSellPrice(0, feeBasisPoints)` return `0`; on
every global account `getInitialBuyPrice(0)` returns `0`. -/
theorem C28_zero_amount_quotes (c : BondingCurveAccount) (g : GlobalAccount)
    (feeBasisPoints : Int) (hc : c.complete = false) :
    c.getBuyPrice 0 = Except.ok 0 ∧ c.getSellPrice 0 feeBasisPoints = Except.ok 0 ∧
      g.getInitialBuyPrice 0 = Except.ok 0 :=
  ⟨BondingCurveAccount.getBuyPrice_of_nonpos c 0 hc (le_refl 0),
    BondingCurveAccount.getSellPrice_of_nonpos c 0 feeBasisPoints hc (le_refl 0),
    by simp [GlobalAccount.getInitialBuyPrice]⟩

/-- Witness of C28: the curve and the global account whose reserves are all
zero. -/
theorem C28_zero_amount_quotes_witness :
    curveEmpty.getBuyPrice 0 = Except.ok 0 ∧ curveEmpty.getSellPrice 0 100 = Except.ok 0 ∧
      globalEmpty.getInitialBuyPrice 0 = Except.ok 0 :=
  C28_zero_amount_quotes curveEmpty globalEmpty 100 rfl

/-- C29, as stated, fails in Scenario A: for the amount `-5` the three quotes
return `0` instead of failing. -/
theorem C29_negative_amount_counterexample :
    scenarioA.complete = false ∧ (-5 : Int) < 0 ∧
      scenarioA.getBuyPrice (-5) = Except.ok 0 ∧
      scenarioA.getSellPrice (-5) 100 = Except.ok 0 ∧
      globalA.getInitialBuyPrice (-5) = Except.ok 0 :=
  ⟨rfl, by decide, rfl, rfl, rfl⟩

/-- C29 (amended): negative inputs are not rejected: on every non-complete
curve and for every `amount < 0`, `getBuyPrice(amount)` and
`getSellPrice(amount, feeBasisPoints)` return `0`, and so does
`getInitialBuyPrice(amount)` on every global account. -/
theorem C29_negative_amount_returns_zero (c : BondingCurveAccount) (g : GlobalAccount)
    (amount feeBasisPoints : Int) (hc : c.complete = false) (ha : amount < 0) :
    c.getBuyPrice amount = Except.ok 0 ∧
      c.getSellPrice amount feeBasisPoints = Except.ok 0 ∧
      g.getInitialBuyPrice amount = Except.ok 0 := by
  have hle : amount ≤ 0 := by omega
  exact ⟨BondingCurveAccount.getBuyPrice_of_nonpos c amount hc hle,
    BondingCurveAccount.getSellPrice_of_nonpos c amount feeBasisPoints hc hle,
    by simp [GlobalAccount.getInitialBuyPrice, hle]⟩

/-- Witness of C29 (amended): the amount `-5` in Scenario A. -/
theorem C29_negative_amount_returns_zero_witness :
    scenarioA.getBuyPrice (-5) = Except.ok 0 ∧
      scenarioA.getSellPrice (-5) 100 = Except.ok 0 ∧
      globalA.getInitialBuyPrice (-5) = Except.ok 0 :=
  C29_negative_amount_returns_zero scenarioA globalA (-5) 100 rfl (by decide)

/-- C30, as stated, fails on the accounts whose reserves are all zero: the
fields are non-negative, `realTokenReserves <= virtualTokenReserves`, and for
the amount `1` both `getBuyPrice` and `getInitialBuyPrice` return `-1`. -/
theorem C30_nonneg_counterexample :
    curveEmpty.complete = false ∧ curveEmpty.NonNegReserves ∧
      curveEmpty.realTokenReserves ≤ curveEmpty.virtualTokenReserves ∧ (0 : Int) < 1 ∧
      curveEmpty.getBuyPrice 1 = Except.ok (-1) ∧
      0 ≤ globalEmpty.initialVirtualTokenReserves ∧
      0 ≤ globalEmpty.initialVirtualSolReserves ∧
      0 ≤ globalEmpty.initialRealTokenReserves ∧
      globalEmpty.getInitialBuyPrice 1 = Except.ok (-1) :=
  ⟨rfl, by decide, by decide, by decide, rfl, by decide, by decide, by decide, rfl⟩

/-- C30 (amended): on a non-complete curve with non-negative reserves,
`realTokenReserves <= virtualTokenReserves` and `virtualTokenReserves > 0`,
for every `amount > 0`, `getBuyPrice(amount)` returns a value `>= 0`; likewise
`getInitialBuyPrice(amount)` returns a value `>= 0` on a global account with
non-negative initial reserves and `initialVirtualTokenReserves > 0`. -/
theorem C30_nonneg_of_pos_virtual_tokens (c : BondingCurveAccount) (g : GlobalAccount)
    (amount : Int) (hc : c.complete = false) (hr : c.NonNegReserves)
    (_hrv : c.realTokenReserves ≤ c.virtualTokenReserves) (ht : 0 < c.virtualTokenReserves)
    (hgt : 0 < g.initialVirtualTokenReserves) (hgs : 0 ≤ g.initialVirtualSolReserves)
    (hgr : 0 ≤ g.initialRealTokenReserves) (ha : 0 < amount) :
    (∃ v, c.getBuyPrice amount = Except.ok v ∧ 0 ≤ v) ∧
      (∃ w, g.getInitialBuyPrice amount = Except.ok w ∧ 0 ≤ w) := by
  obtain ⟨-, hs, hrt, -⟩ := hr
  constructor
  · exact getBuyPrice_nonneg_of_pos c amount hc hs ht hrt ha
  · have heq := getInitialBuyPrice_eq_getBuyPrice g
      ⟨0, g.initialVirtualTokenReserves, g.initialVirtualSolReserves,
        g.initialRealTokenReserves, 0, g.tokenTotalSupply, false⟩ amount rfl rfl rfl rfl
    rw [heq]
    exact getBuyPrice_nonneg_of_pos _ amount rfl hgs hgt hgr ha

/-- Witness of C30 (amended): Scenario A and its global account, one lamport
paid in. -/
theorem C30_nonneg_of_pos_virtual_tokens_witness :
    (∃ v, scenarioA.getBuyPrice 1 = Except.ok v ∧ 0 ≤ v) ∧
      (∃ w, globalA.getInitialBuyPrice 1 = Except.ok w ∧ 0 ≤ w) :=
  C30_nonneg_of_pos_virtual_tokens scenarioA globalA 1 rfl (by decide) (by decide)
    (by decide) (by decide) (by decide) (by decide) (by decide)

/-! ## Auxiliary facts relating the quote and the simulator -/

/-- A request that neither exceeds the real token reserve nor reaches the
virtual one is delivered in full by `applyBuy`, at the price of
`AMM.getBuyPrice`. -/
theorem applyBuy_result_of_le (s : AMM) (t : Int) (hs : 0 ≤ s.virtualSolReserves)
    (ht : 0 ≤ s.virtualTokenReserves) (hle : t ≤ s.realTokenReserves)
    (hlt : t < s.virtualTokenReserves) :
    (s.applyBuy t).2 = Except.ok
      { token_amount := t
        sol_amount := max 0 (s.virtualSolReserves * s.virtualTokenReserves /
          (s.virtualTokenReserves - t) + 1 - s.virtualSolReserves) } := by
  have hfinal : (if t > s.realTokenReserves then s.realTokenReserves else t) = t := by
    split <;> omega
  simp only [AMM.applyBuy, hfinal, AMM.amm_getBuyPrice_of_lt s t hs ht hlt]

/-- The constant product is exceeded as soon as the token reserve stays above
the quotient of the buy formula. -/
theorem product_lt_of_quotient_lt (vSol vTok amount d : Int) (hi : 0 < vSol + amount)
    (hd : vSol * vTok / (vSol + amount) + 1 ≤ d) :
    vSol * vTok < (vSol + amount) * d := by
  have h1 := Int.lt_ediv_add_one_mul_self (vSol * vTok) hi
  have h2 : (vSol * vTok / (vSol + amount) + 1) * (vSol + amount) ≤ d * (vSol + amount) :=
    Int.mul_le_mul_of_nonneg_right hd (Int.le_of_lt hi)
  rw [Int.mul_comm (vSol + amount) d]
  omega

/-- The tokens quoted by `getBuyPrice` for `a` lamports cost at most `a`
lamports in a simulator that holds the reserves of the curve. -/
theorem quote_affordable (b : BondingCurveAccount) (s : AMM) (a : Int)
    (hc : b.complete = false) (hr : b.NonNegReserves) (ht : 1 ≤ b.virtualTokenReserves)
    (ha : 1 ≤ a) (h1 : s.virtualSolReserves = b.virtualSolReserves)
    (h2 : s.virtualTokenReserves = b.virtualTokenReserves)
    (h3 : s.realTokenReserves = b.realTokenReserves) :
    ∃ t sol, b.getBuyPrice a = Except.ok t ∧
      (s.applyBuy t).2 = Except.ok { token_amount := t, sol_amount := sol } ∧ sol ≤ a := by
  obtain ⟨-, hs, hrt, -⟩ := hr
  have hn : 0 ≤ b.virtualSolReserves * b.virtualTokenReserves :=
    Int.mul_nonneg hs (by omega)
  have hq0 : 0 ≤ b.virtualSolReserves * b.virtualTokenReserves / (b.virtualSolReserves + a) :=
    Int.ediv_nonneg hn (by omega)
  have hget := BondingCurveAccount.getBuyPrice_of_pos b a hc (by omega) hs hn
  have hprod := product_lt_of_quotient_lt b.virtualSolReserves b.virtualTokenReserves a
    (b.virtualTokenReserves - min (b.virtualTokenReserves -
      (b.virtualSolReserves * b.virtualTokenReserves / (b.virtualSolReserves + a) + 1))
      b.realTokenReserves) (by omega) (by omega)
  have hd : 0 < b.virtualTokenReserves - min (b.virtualTokenReserves -
      (b.virtualSolReserves * b.virtualTokenReserves / (b.virtualSolReserves + a) + 1))
      b.realTokenReserves := by omega
  have hlt := (Int.ediv_lt_iff_lt_mul hd).mpr hprod
  refine ⟨_, _, hget, applyBuy_result_of_le s _ (by omega) (by omega) (by omega) (by omega), ?_⟩
  rw [h1, h2]
  omega

/-! ## The claims on overflow, the final market cap and the constant product -/

/-- C31, as stated, fails on inputs of the 64-bit range: on `curveHuge` the
market cap `(2 ^ 64 - 1) ^ 2` is returned although it is at least `2 ^ 64`, and
`calculateWithSlippageBuy(2 ^ 64 - 1, 10000)` returns `2 ^ 65 - 2`. -/
theorem C31_overflow_counterexample :
    IsU64 curveHuge.tokenTotalSupply ∧ IsU64 curveHuge.virtualSolReserves ∧
      IsU64 curveHuge.virtualTokenReserves ∧
      (2 : Int) ^ 64 ≤ curveHuge.tokenTotalSupply * curveHuge.virtualSolReserves /
        curveHuge.virtualTokenReserves ∧
      curveHuge.getMarketCapSOL = Except.ok 340282366920938463426481119284349108225 ∧
      IsU64 18446744073709551615 ∧ IsU64 10000 ∧
      (2 : Int) ^ 64 ≤ 18446744073709551615 + 18446744073709551615 * 10000 / 10000 ∧
      calculateWithSlippageBuy 18446744073709551615 10000 = 36893488147419103230 :=
  ⟨by decide, by decide, by decide, by decide, rfl, by decide, by decide, by decide, rfl⟩

/-- C31 (amended): no result is reported as overflow.  For fields and
arguments in the 64-bit range, `getMarketCapSOL()` returns
`floor(tokenTotalSupply * virtualSolReserves / virtualTokenReserves)` also when
that value is at least `2 ^ 64`, and `calculateWithSlippageBuy(amount,
basisPoints)` returns `amount + floor(amount * basisPoints / 10000)` also when
that value is at least `2 ^ 64`. -/
theorem C31_no_overflow_check (c : BondingCurveAccount) (amount basisPoints : Int)
    (hsup : IsU64 c.tokenTotalSupply) (hs : IsU64 c.virtualSolReserves)
    (ht : IsU64 c.virtualTokenReserves) (ha : IsU64 amount) (hb : IsU64 basisPoints) :
    ((2 : Int) ^ 64 ≤ c.tokenTotalSupply * c.virtualSolReserves / c.virtualTokenReserves →
        c.getMarketCapSOL = Except.ok
          (c.tokenTotalSupply * c.virtualSolReserves / c.virtualTokenReserves)) ∧
      ((2 : Int) ^ 64 ≤ amount + amount * basisPoints / 10000 →
        calculateWithSlippageBuy amount basisPoints =
          amount + amount * basisPoints / 10000) := by
  constructor
  · intro hbig
    by_cases h0 : c.virtualTokenReserves = 0
    · rw [h0, Int.ediv_zero] at hbig
      have : (0 : Int) < 2 ^ 64 := by positivity
      omega
    · have hpos : 0 < c.virtualTokenReserves := by
        have := ht.1
        omega
      simp only [BondingCurveAccount.getMarketCapSOL, h0, ↓reduceIte,
        bigDiv_of_nonneg_of_pos _ _ (Int.mul_nonneg hsup.1 hs.1) hpos]
  · intro _
    unfold calculateWithSlippageBuy
    rw [Int.tdiv_eq_ediv (Int.mul_nonneg ha.1 hb.1) (by omega)]

/-- Witness of C31 (amended): the curve `curveHuge` and the maximal amount at
`10000` basis points. -/
theorem C31_no_overflow_check_witness :
    curveHuge.getMarketCapSOL = Except.ok
        (curveHuge.tokenTotalSupply * curveHuge.virtualSolReserves /
          curveHuge.virtualTokenReserves) ∧
      calculateWithSlippageBuy 18446744073709551615 10000 =
        18446744073709551615 + 18446744073709551615 * 10000 / 10000 :=
  ⟨(C31_no_overflow_check curveHuge 18446744073709551615 10000 (by decide) (by decide)
      (by decide) (by decide) (by decide)).1 (by decide),
    (C31_no_overflow_check curveHuge 18446744073709551615 10000 (by decide) (by decide)
      (by decide) (by decide) (by decide)).2 (by decide)⟩

/-- C32: on every curve with `realTokenReserves <= virtualTokenReserves`,
whatever its `complete` flag, and for every fee rate,
`getFinalMarketCapSOL(feeBasisPoints)` fails with the division-by-zero error:
the call `getBuyOutPrice(realTokenReserves, feeBasisPoints)` that comes first
fails with it. -/
theorem C32_getFinalMarketCapSOL_fails (c : BondingCurveAccount) (feeBasisPoints : Int)
    (h : c.realTokenReserves ≤ c.virtualTokenReserves) :
    c.getBuyOutPrice c.realTokenReserves feeBasisPoints = Except.error Err.divisionByZero ∧
      c.getFinalMarketCapSOL feeBasisPoints = Except.error Err.divisionByZero := by
  refine ⟨?_, BondingCurveAccount.getFinalMarketCapSOL_of_le c feeBasisPoints h⟩
  have hd : c.virtualTokenReserves - max c.realTokenReserves c.virtualTokenReserves = 0 := by
    omega
  rw [BondingCurveAccount.getBuyOutPrice_eq, if_pos hd]

/-- Witness of C32: Scenario A and its completed copy. -/
theorem C32_getFinalMarketCapSOL_fails_witness :
    (scenarioA.getBuyOutPrice scenarioA.realTokenReserves 100 =
        Except.error Err.divisionByZero ∧
      scenarioA.getFinalMarketCapSOL 100 = Except.error Err.divisionByZero) ∧
      (scenarioB.getBuyOutPrice scenarioB.realTokenReserves 100 =
        Except.error Err.divisionByZero ∧
      scenarioB.getFinalMarketCapSOL 100 = Except.error Err.divisionByZero) :=
  ⟨C32_getFinalMarketCapSOL_fails scenarioA 100 (by decide),
    C32_getFinalMarketCapSOL_fails scenarioB 100 (by decide)⟩

/-- C33: on a non-complete curve with non-negative reserves and
`virtualTokenReserves >= 1`, for every `amount > 0`, `getBuyPrice(amount)`
returns a value `t` with `(virtualSolReserves + amount) *
(virtualTokenReserves - t) > virtualSolReserves * virtualTokenReserves`. -/
theorem C33_getBuyPrice_keeps_product (c : BondingCurveAccount) (amount : Int)
    (hc : c.complete = false) (hr : c.NonNegReserves) (ht : 1 ≤ c.virtualTokenReserves)
    (ha : 0 < amount) :
    ∃ t, c.getBuyPrice amount = Except.ok t ∧
      (c.virtualSolReserves + amount) * (c.virtualTokenReserves - t) >
        c.virtualSolReserves * c.virtualTokenReserves := by
  obtain ⟨-, hs, -, -⟩ := hr
  refine ⟨_, BondingCurveAccount.getBuyPrice_of_pos c amount hc ha hs
    (Int.mul_nonneg hs (by omega)), ?_⟩
  exact product_lt_of_quotient_lt c.virtualSolReserves c.virtualTokenReserves amount _
    (by omega) (by omega)

/-- Witness of C33: Scenario A with one million lamports paid in. -/
theorem C33_getBuyPrice_keeps_product_witness :
    ∃ t, scenarioA.getBuyPrice 1000000 = Except.ok t ∧
      (scenarioA.virtualSolReserves + 1000000) * (scenarioA.virtualTokenReserves - t) >
        scenarioA.virtualSolReserves * scenarioA.virtualTokenReserves :=
  C33_getBuyPrice_keeps_product scenarioA 1000000 rfl (by decide) (by decide) (by decide)

/-- C34: for a non-complete curve `b` with non-negative reserves,
`virtualTokenReserves >= 1` and `realTokenReserves <= virtualTokenReserves`,
every baseline `ivt` and every SOL amount `a >= 1`, with
`t = b.getBuyPrice(a)`, the call
`AMM.fromBondingCurveAccount(b, ivt).applyBuy(t)` returns `token_amount = t`
and a `sol_amount <= a`. -/
theorem C34_quote_affordable_in_simulator (b : BondingCurveAccount) (ivt a : Int)
    (hc : b.complete = false) (hr : b.NonNegReserves) (ht : 1 ≤ b.virtualTokenReserves)
    (_hrv : b.realTokenReserves ≤ b.virtualTokenReserves) (ha : 1 ≤ a) :
    ∃ t sol, b.getBuyPrice a = Except.ok t ∧
      ((AMM.fromBondingCurveAccount b ivt).applyBuy t).2 =
        Except.ok { token_amount := t, sol_amount := sol } ∧ sol ≤ a :=
  quote_affordable b (AMM.fromBondingCurveAccount b ivt) a hc hr ht ha rfl rfl rfl

/-- Witness of C34: Scenario A, one million lamports. -/
theorem C34_quote_affordable_in_simulator_witness :
    ∃ t sol, scenarioA.getBuyPrice 1000000 = Except.ok t ∧
      ((AMM.fromBondingCurveAccount scenarioA 1073000000).applyBuy t).2 =
        Except.ok { token_amount := t, sol_amount := sol } ∧ sol ≤ 1000000 :=
  C34_quote_affordable_in_simulator scenarioA 1073000000 1000000 rfl (by decide) (by decide)
    (by decide) (by decide)

/-! ## Auxiliary facts on the effect of one simulator call -/

/-- The SOL computed by `AMM.getSellPrice`, times the token reserve, is at most
the SOL reserve times the tokens sold. -/
theorem sell_received_mul_le (vSol init V t : Int) (hs : 0 ≤ vSol) (hi : 0 < init)
    (hV : 0 < V) :
    vSol * (t * init / V) / init * V ≤ vSol * t := by
  have h1 : vSol * (t * init / V) / init * init ≤ vSol * (t * init / V) :=
    Int.ediv_mul_le _ (by omega)
  have h2 : t * init / V * V ≤ t * init := Int.ediv_mul_le _ (by omega)
  have h3 := Int.mul_le_mul_of_nonneg_right h1 (Int.le_of_lt hV)
  have h4 := Int.mul_le_mul_of_nonneg_left h2 hs
  have h5 : vSol * (t * init / V) / init * V * init ≤ vSol * t * init := by
    nlinarith
  exact Int.le_of_mul_le_mul_right h5 hi

/-- The effect of a successful `applySell`, with the bounds on the SOL paid
out. -/
theorem applySell_spec (s : AMM) (t : Int) (hs : 0 ≤ s.virtualSolReserves)
    (hi : 0 < s.initialVirtualTokenReserves) (ht : 0 ≤ t)
    (hpos : 0 < s.virtualTokenReserves + t) :
    ∃ sol, s.applySell t =
        (⟨s.virtualSolReserves - sol, s.virtualTokenReserves + t, s.realSolReserves - sol,
          s.realTokenReserves + t, s.initialVirtualTokenReserves⟩,
         Except.ok ⟨t, sol⟩) ∧
      sol * (s.virtualTokenReserves + t) ≤ s.virtualSolReserves * t ∧
      sol ≤ s.realSolReserves ∧ (0 ≤ s.realSolReserves → 0 ≤ sol) := by
  refine ⟨_, AMM.applySell_of_pos s t hs hi ht hpos, ?_, min_le_left _ _, ?_⟩
  · have h1 := sell_received_mul_le s.virtualSolReserves s.initialVirtualTokenReserves
      (s.virtualTokenReserves + t) t hs hi hpos
    have h2 : min s.realSolReserves (s.virtualSolReserves *
        (t * s.initialVirtualTokenReserves / (s.virtualTokenReserves + t)) /
        s.initialVirtualTokenReserves) ≤ s.virtualSolReserves *
        (t * s.initialVirtualTokenReserves / (s.virtualTokenReserves + t)) /
        s.initialVirtualTokenReserves := min_le_right _ _
    have h3 := Int.mul_le_mul_of_nonneg_right h2 (Int.le_of_lt hpos)
    omega
  · intro hrs
    have h1 : 0 ≤ t * s.initialVirtualTokenReserves / (s.virtualTokenReserves + t) :=
      Int.ediv_nonneg (Int.mul_nonneg ht (by omega)) (by omega)
    have h2 : 0 ≤ s.virtualSolReserves *
        (t * s.initialVirtualTokenReserves / (s.virtualTokenReserves + t)) /
        s.initialVirtualTokenReserves :=
      Int.ediv_nonneg (Int.mul_nonneg hs h1) (by omega)
    exact le_min hrs h2

/-- The effect of a successful `applyBuy`, with the bounds on the SOL charged. -/
theorem applyBuy_spec (s : AMM) (t : Int) (hs : 0 ≤ s.virtualSolReserves)
    (hr : 0 ≤ s.realTokenReserves) (hrv : s.realTokenReserves < s.virtualTokenReserves) :
    ∃ sol, s.applyBuy t =
        (⟨s.virtualSolReserves + sol, s.virtualTokenReserves - min t s.realTokenReserves,
          s.realSolReserves + sol, s.realTokenReserves - min t s.realTokenReserves,
          s.initialVirtualTokenReserves⟩,
         Except.ok ⟨min t s.realTokenReserves, sol⟩) ∧
      0 ≤ sol ∧
      s.virtualSolReserves * s.virtualTokenReserves <
        (s.virtualSolReserves + sol) * (s.virtualTokenReserves - min t s.realTokenReserves) := by
  refine ⟨_, AMM.applyBuy_of_lt s t hs hr hrv, le_max_left _ _, ?_⟩
  have hd : 0 < s.virtualTokenReserves - min t s.realTokenReserves := by omega
  have h1 := Int.lt_ediv_add_one_mul_self (s.virtualSolReserves * s.virtualTokenReserves) hd
  have h2 : s.virtualSolReserves * s.virtualTokenReserves /
      (s.virtualTokenReserves - min t s.realTokenReserves) + 1 ≤
      s.virtualSolReserves + max 0 (s.virtualSolReserves * s.virtualTokenReserves /
        (s.virtualTokenReserves - min t s.realTokenReserves) + 1 - s.virtualSolReserves) := by
    omega
  have h3 := Int.mul_le_mul_of_nonneg_right h2 (Int.le_of_lt hd)
  omega

/-- A well-formed state has non-negative reserves. -/
theorem nonNeg_of_wellFormed (s : AMM) (h : s.WellFormed) : s.NonNegReserves := by
  obtain ⟨⟨h1, h2⟩, ⟨h3, h4⟩, -⟩ := h
  exact ⟨by omega, by omega, h3, h1⟩

/-- One call with a non-negative argument keeps a state well-formed. -/
theorem wellFormed_afterCall (s : AMM) (c : AMMCall) (h : s.WellFormed)
    (hc : 0 ≤ c.amount) : (s.afterCall c).WellFormed := by
  obtain ⟨⟨h1, h2⟩, ⟨h3, h4⟩, h5⟩ := h
  cases c with
  | buy t =>
    obtain ⟨sol, hbuy, hsol, -⟩ := applyBuy_spec s t (by omega) h1 h2
    simp only [AMM.afterCall, hbuy, AMM.WellFormed]
    exact ⟨⟨by omega, by omega⟩, ⟨by omega, by omega⟩, h5⟩
  | sell t =>
    have ht : 0 ≤ t := hc
    obtain ⟨sol, hsell, -, hle, hnn⟩ := applySell_spec s t (by omega) h5 ht (by omega)
    have := hnn h3
    simp only [AMM.afterCall, hsell, AMM.WellFormed]
    exact ⟨⟨by omega, by omega⟩, ⟨by omega, by omega⟩, h5⟩

/-- Calls with non-negative arguments keep a state well-formed. -/
theorem wellFormed_afterCalls (calls : List AMMCall) (s : AMM) (h : s.WellFormed)
    (hc : ∀ c ∈ calls, 0 ≤ c.amount) : (s.afterCalls calls).WellFormed := by
  induction calls generalizing s with
  | nil => exact h
  | cons c rest ih =>
    have hfold : s.afterCalls (c :: rest) = (s.afterCall c).afterCalls rest := rfl
    rw [hfold]
    exact ih (s.afterCall c)
      (wellFormed_afterCall s c h (hc c (List.mem_cons_self c rest)))
      (fun c' hc' => hc c' (List.mem_cons_of_mem c hc'))

/-! ## The claims on round trips, well-formedness and sell proceeds -/

/-- C35: on a state with `virtualSolReserves >= realSolReserves >= 0`,
`0 <= realTokenReserves < virtualTokenReserves` and
`initialVirtualTokenReserves > 0`, for every `t` with
`0 < t <= realTokenReserves`, `applyBuy(t)` followed by `applySell(t)` both
return, `virtualTokenReserves` and `realTokenReserves` are back at their
original values, and the sell's `sol_amount` is at most the buy's. -/
theorem C35_buy_then_sell_no_profit (s : AMM) (t : Int) (hw : s.WellFormed) (ht : 0 < t)
    (htr : t ≤ s.realTokenReserves) :
    ∃ rb rs, (s.applyBuy t).2 = Except.ok rb ∧
      ((s.applyBuy t).1.applySell t).2 = Except.ok rs ∧
      ((s.applyBuy t).1.applySell t).1.virtualTokenReserves = s.virtualTokenReserves ∧
      ((s.applyBuy t).1.applySell t).1.realTokenReserves = s.realTokenReserves ∧
      rs.sol_amount ≤ rb.sol_amount := by
  obtain ⟨⟨h1, h2⟩, ⟨h3, h4⟩, h5⟩ := hw
  obtain ⟨solb, hbuy, hsolb, hprod⟩ := applyBuy_spec s t (by omega) h1 h2
  have hmin : min t s.realTokenReserves = t := by omega
  rw [hmin] at hbuy hprod
  obtain ⟨sols, hsell, hmul, -, -⟩ := applySell_spec
    ⟨s.virtualSolReserves + solb, s.virtualTokenReserves - t, s.realSolReserves + solb,
      s.realTokenReserves - t, s.initialVirtualTokenReserves⟩ t
    (show 0 ≤ s.virtualSolReserves + solb by omega) h5 (by omega)
    (show 0 < s.virtualTokenReserves - t + t by omega)
  have hmul' : sols * (s.virtualTokenReserves - t + t) ≤ (s.virtualSolReserves + solb) * t :=
    hmul
  have hback : s.virtualTokenReserves - t + t = s.virtualTokenReserves := by omega
  rw [hback] at hmul'
  have hlt : sols * s.virtualTokenReserves < solb * s.virtualTokenReserves := by
    nlinarith
  have hle : sols ≤ solb :=
    Int.le_of_lt (Int.lt_of_mul_lt_mul_right hlt (by omega))
  rw [hbuy]
  simp only [hsell]
  exact ⟨_, _, rfl, rfl, by omega, by omega, hle⟩

/-- Witness of C35: one hundred million tokens bought from and sold back to
`ammA`. -/
theorem C35_buy_then_sell_no_profit_witness :
    ∃ rb rs, (ammA.applyBuy 100000000).2 = Except.ok rb ∧
      ((ammA.applyBuy 100000000).1.applySell 100000000).2 = Except.ok rs ∧
      ((ammA.applyBuy 100000000).1.applySell 100000000).1.virtualTokenReserves =
        ammA.virtualTokenReserves ∧
      ((ammA.applyBuy 100000000).1.applySell 100000000).1.realTokenReserves =
        ammA.realTokenReserves ∧
      rs.sol_amount ≤ rb.sol_amount :=
  C35_buy_then_sell_no_profit ammA 100000000 (by decide) (by decide) (by decide)

/-- C36: on a well-formed state, for every `token_amount >= 0`, both
`applyBuy(token_amount)` and `applySell(token_amount)` return and leave a
well-formed state, whose four reserves are non-negative; the same holds after
any sequence of calls with non-negative arguments. -/
theorem C36_wellFormed_invariant (s : AMM) (token_amount : Int) (calls : List AMMCall)
    (hw : s.WellFormed) (ht : 0 ≤ token_amount) (hcalls : ∀ c ∈ calls, 0 ≤ c.amount) :
    ((∃ r, (s.applyBuy token_amount).2 = Except.ok r) ∧
        (s.applyBuy token_amount).1.WellFormed ∧
        (s.applyBuy token_amount).1.NonNegReserves) ∧
      ((∃ r, (s.applySell token_amount).2 = Except.ok r) ∧
        (s.applySell token_amount).1.WellFormed ∧
        (s.applySell token_amount).1.NonNegReserves) ∧
      (s.afterCalls calls).WellFormed ∧ (s.afterCalls calls).NonNegReserves := by
  have hb := wellFormed_afterCall s (AMMCall.buy token_amount) hw ht
  have hs := wellFormed_afterCall s (AMMCall.sell token_amount) hw ht
  have hc := wellFormed_afterCalls calls s hw hcalls
  obtain ⟨⟨h1, h2⟩, ⟨h3, h4⟩, h5⟩ := hw
  obtain ⟨solb, hbuy, -, -⟩ := applyBuy_spec s token_amount (by omega) h1 h2
  obtain ⟨sols, hsell, -, -, -⟩ := applySell_spec s token_amount (by omega) h5 ht (by omega)
  refine ⟨⟨⟨_, by rw [hbuy]⟩, hb, nonNeg_of_wellFormed _ hb⟩,
    ⟨⟨_, by rw [hsell]⟩, hs, nonNeg_of_wellFormed _ hs⟩, hc, nonNeg_of_wellFormed _ hc⟩

/-- Witness of C36: `ammA`, one hundred million tokens, and a buy, a sell and
a buy beyond the real reserve in sequence. -/
theorem C36_wellFormed_invariant_witness :
    ((∃ r, (ammA.applyBuy 100000000).2 = Except.ok r) ∧
        (ammA.applyBuy 100000000).1.WellFormed ∧
        (ammA.applyBuy 100000000).1.NonNegReserves) ∧
      ((∃ r, (ammA.applySell 100000000).2 = Except.ok r) ∧
        (ammA.applySell 100000000).1.WellFormed ∧
        (ammA.applySell 100000000).1.NonNegReserves) ∧
      (ammA.afterCalls [AMMCall.buy 100000000, AMMCall.sell 50000000,
        AMMCall.buy 900000000]).WellFormed ∧
      (ammA.afterCalls [AMMCall.buy 100000000, AMMCall.sell 50000000,
        AMMCall.buy 900000000]).NonNegReserves :=
  C36_wellFormed_invariant ammA 100000000
    [AMMCall.buy 100000000, AMMCall.sell 50000000, AMMCall.buy 900000000]
    (by decide) (by decide) (by decide)

/-- C37: on a state with non-negative reserves, `virtualTokenReserves > 0` and
`initialVirtualTokenReserves > 0`, for every `token_amount >= 0`,
`applySell(token_amount)` returns, and the product `virtualSolReserves *
virtualTokenReserves` after the call is at least the product before it. -/
theorem C37_applySell_product_not_decreasing (s : AMM) (token_amount : Int)
    (hr : s.NonNegReserves) (hvt : 0 < s.virtualTokenReserves)
    (hi : 0 < s.initialVirtualTokenReserves) (ht : 0 ≤ token_amount) :
    (∃ r, (s.applySell token_amount).2 = Except.ok r) ∧
      s.virtualSolReserves * s.virtualTokenReserves ≤
        (s.applySell token_amount).1.virtualSolReserves *
          (s.applySell token_amount).1.virtualTokenReserves := by
  obtain ⟨sol, hsell, hmul, -, -⟩ := applySell_spec s token_amount hr.1 hi ht (by omega)
  rw [hsell]
  refine ⟨⟨_, rfl⟩, ?_⟩
  show s.virtualSolReserves * s.virtualTokenReserves ≤
    (s.virtualSolReserves - sol) * (s.virtualTokenReserves + token_amount)
  nlinarith

/-- Witness of C37: selling one hundred million tokens into `ammA`. -/
theorem C37_applySell_product_not_decreasing_witness :
    (∃ r, (ammA.applySell 100000000).2 = Except.ok r) ∧
      ammA.virtualSolReserves * ammA.virtualTokenReserves ≤
        (ammA.applySell 100000000).1.virtualSolReserves *
          (ammA.applySell 100000000).1.virtualTokenReserves :=
  C37_applySell_product_not_decreasing ammA 100000000 (by decide) (by decide) (by decide)
    (by decide)

/-- C38: for a non-complete curve `b` with non-negative reserves and
`virtualTokenReserves > 0`, every baseline `initialVirtualTokenReserves > 0`
and every `t > 0`, the `sol_amount` returned by
`AMM.fromBondingCurveAccount(b, initialVirtualTokenReserves).applySell(t)` is
at most `b.getSellPrice(t, 0)`. -/
theorem C38_simulated_sell_le_quote (b : BondingCurveAccount)
    (initialVirtualTokenReserves t : Int) (hc : b.complete = false)
    (hr : b.NonNegReserves) (hvt : 0 < b.virtualTokenReserves)
    (hi : 0 < initialVirtualTokenReserves) (ht : 0 < t) :
    ∃ r g, ((AMM.fromBondingCurveAccount b initialVirtualTokenReserves).applySell t).2 =
        Except.ok r ∧
      b.getSellPrice t 0 = Except.ok g ∧ r.sol_amount ≤ g := by
  obtain ⟨-, hs, -, -⟩ := hr
  obtain ⟨sol, hsell, hmul, -, -⟩ := applySell_spec
    (AMM.fromBondingCurveAccount b initialVirtualTokenReserves) t hs hi (by omega)
    (show 0 < b.virtualTokenReserves + t by omega)
  have hmul' : sol * (b.virtualTokenReserves + t) ≤ b.virtualSolReserves * t := hmul
  refine ⟨_, _, by rw [hsell],
    BondingCurveAccount.getSellPrice_zero_fee b t hc ht (by omega) hs, ?_⟩
  show sol ≤ t * b.virtualSolReserves / (b.virtualTokenReserves + t)
  rw [Int.le_ediv_iff_mul_le (by omega), Int.mul_comm t b.virtualSolReserves]
  exact hmul'

/-- Witness of C38: one million tokens sold into `scenarioAFunded`, the curve
of Scenario A after five SOL were paid in, with baseline `1073000000`.  The
simulator is the state `ammA`; its two truncating divisions give `34965032`
lamports, which is below `realSolReserves = 5000000000`, so the payout is the
computed amount and not the cap.  The fee-free quote of the curve is
`34965034`, two lamports more. -/
theorem C38_simulated_sell_le_quote_witness :
    AMM.fromBondingCurveAccount scenarioAFunded 1073000000 = ammA ∧
      ((AMM.fromBondingCurveAccount scenarioAFunded 1073000000).applySell 1000000).2 =
        Except.ok { token_amount := 1000000, sol_amount := 34965032 } ∧
      (34965032 : Int) < scenarioAFunded.realSolReserves ∧
      scenarioAFunded.getSellPrice 1000000 0 = Except.ok 34965034 ∧
      ∃ r g, ((AMM.fromBondingCurveAccount scenarioAFunded 1073000000).applySell 1000000).2 =
          Except.ok r ∧
        scenarioAFunded.getSellPrice 1000000 0 = Except.ok g ∧ r.sol_amount ≤ g :=
  ⟨rfl, rfl, by decide, rfl,
    C38_simulated_sell_le_quote scenarioAFunded 1073000000 1000000 rfl (by decide) (by decide)
      (by decide) (by decide)⟩

/-- C39: on a curve with `virtualTokenReserves >= 0` and
`virtualSolReserves >= 0`, for a fee rate with `0 <= feeBasisPoints < 10000`,
`getBuyOutPrice(tokenAmount, feeBasisPoints)` returns a value `<= 1` for every
`tokenAmount > virtualTokenReserves`, and no `tokenAmount` makes it return a
value greater than `1`. -/
theorem C39_getBuyOutPrice_le_one (c : BondingCurveAccount) (tokenAmount feeBasisPoints : Int)
    (hvt : 0 ≤ c.virtualTokenReserves) (hvs : 0 ≤ c.virtualSolReserves)
    (hf0 : 0 ≤ feeBasisPoints) (hf1 : feeBasisPoints < 10000) :
    (c.virtualTokenReserves < tokenAmount →
        ∃ v, c.getBuyOutPrice tokenAmount feeBasisPoints = Except.ok v ∧ v ≤ 1) ∧
      (∀ v, c.getBuyOutPrice tokenAmount feeBasisPoints = Except.ok v → v ≤ 1) := by
  have heq := BondingCurveAccount.getBuyOutPrice_eq c tokenAmount feeBasisPoints
  have hval : c.virtualTokenReserves - max tokenAmount c.virtualTokenReserves ≠ 0 →
      Int.tdiv (c.virtualSolReserves * max tokenAmount c.virtualTokenReserves)
          (c.virtualTokenReserves - max tokenAmount c.virtualTokenReserves) + 1 +
        Int.tdiv ((Int.tdiv (c.virtualSolReserves * max tokenAmount c.virtualTokenReserves)
          (c.virtualTokenReserves - max tokenAmount c.virtualTokenReserves) + 1) *
          feeBasisPoints) 10000 ≤ 1 := by
    intro hd
    have hq : Int.tdiv (c.virtualSolReserves * max tokenAmount c.virtualTokenReserves)
        (c.virtualTokenReserves - max tokenAmount c.virtualTokenReserves) ≤ 0 :=
      Int.tdiv_nonpos (Int.mul_nonneg hvs (by omega)) (by omega)
    generalize Int.tdiv (c.virtualSolReserves * max tokenAmount c.virtualTokenReserves)
        (c.virtualTokenReserves - max tokenAmount c.virtualTokenReserves) = q at hq
    rcases Int.lt_or_le q 0 with hneg | hzero
    · have h1 : 0 ≤ -((q + 1) * feeBasisPoints) := by
        have : (q + 1) * feeBasisPoints ≤ 0 :=
          Int.mul_nonpos_of_nonpos_of_nonneg (by omega) hf0
        omega
      have h2 : 0 ≤ Int.tdiv (-((q + 1) * feeBasisPoints)) 10000 :=
        Int.tdiv_nonneg h1 (by omega)
      rw [Int.neg_tdiv] at h2
      omega
    · have hq0 : q = 0 := by omega
      subst hq0
      have h3 : Int.tdiv ((0 + 1) * feeBasisPoints) 10000 = 0 := by
        rw [Int.zero_add, Int.one_mul, Int.tdiv_eq_ediv hf0 (by omega)]
        exact Int.ediv_eq_zero_of_lt hf0 hf1
      omega
  constructor
  · intro hlt
    have hd : c.virtualTokenReserves - max tokenAmount c.virtualTokenReserves ≠ 0 := by omega
    exact ⟨_, by rw [heq, if_neg hd], hval hd⟩
  · intro v hv
    by_cases hd : c.virtualTokenReserves - max tokenAmount c.virtualTokenReserves = 0
    · rw [heq, if_pos hd] at hv
      simp at hv
    · rw [heq, if_neg hd] at hv
      injection hv with hv
      rw [← hv]
      exact hval hd

/-- Witness of C39: buying out two billion tokens from Scenario A at one per
cent. -/
theorem C39_getBuyOutPrice_le_one_witness :
    (∃ v, scenarioA.getBuyOutPrice 2000000000 100 = Except.ok v ∧ v ≤ 1) ∧
      (∀ v, scenarioA.getBuyOutPrice 2000000000 100 = Except.ok v → v ≤ 1) :=
  ⟨(C39_getBuyOutPrice_le_one scenarioA 2000000000 100 (by decide) (by decide) (by decide)
      (by decide)).1 (by decide),
    (C39_getBuyOutPrice_le_one scenarioA 2000000000 100 (by decide) (by decide) (by decide)
      (by decide)).2⟩

end PumpFun
